import Mathlib

/-!
# Particle connection system (`sketch.js`)

A shallow embedding of the simulation core of `sketch.js`.

Modelling conventions.

* JavaScript numbers are embedded as the elements of an arbitrary linearly
  ordered field `K` with exact arithmetic (the rationals and the reals are
  instances); frame counters (`collisionTimer`, `cursorInfluenceTimer`,
  `lifespan`) only ever hold integers and are embedded as `ℤ`;
  `lifespan = undefined` is `none`.
* `NETWORK_SETTINGS` is a record passed to every operation as `cfg`, so that
  a property can be stated for every value of a setting; the constant record
  of the source is `NETWORK_SETTINGS`.
* `Math.sqrt` / `sqrt` is a host function.  It is passed as a parameter
  `sqrt : K → K`; a theorem that depends on its value assumes `IsSqrt` at
  the argument the code evaluates it on.  Over the reals `Real.sqrt` has
  that property at every non-negative argument (`isSqrt_real_sqrt`); the
  computable `ratSqrt` serves at concrete rational inputs.
* `random` is a host function.  Every call is replaced by an explicit draw
  that the caller supplies, so a theorem quantifies over all outcomes.
* The only division of the modelled code whose divisor can be zero at run
  time is `dx / distance` in `handleParticleCollisions`.  JavaScript
  evaluates it to `NaN`, which has no counterpart in a field; the embedding
  reports that event as `none`.
-/

namespace Sketch

variable {K : Type} [LinearOrderedField K]

/-! ## Settings -/

/-- The fields of `NETWORK_SETTINGS` (lines 2-27). -/
structure Settings (K : Type) where
  particleCount : K
  connectionThreshold : K
  particleRadius : K
  particleSpeed : K
  backgroundColor : K
  particleColor : K
  cursorInfluenceRadius : K
  cursorRepulsionStrength : K
  cursorHighlightColor : K
  maxParticles : ℕ
  particleLifespan : ℤ
  spawnParticleCount : ℕ
  newParticleColor : K
  collisionEnabled : Bool
  collisionElasticity : K
  collisionDistance : K
  collisionHighlightDuration : ℤ
  collisionHighlightColor : K

/-- The constant `NETWORK_SETTINGS` of the source. -/
def NETWORK_SETTINGS : Settings K where
  particleCount := 100
  connectionThreshold := 100
  particleRadius := 5
  particleSpeed := 2
  backgroundColor := 0
  particleColor := 200
  cursorInfluenceRadius := 100
  cursorRepulsionStrength := 2
  cursorHighlightColor := 255
  maxParticles := 200
  particleLifespan := 300
  spawnParticleCount := 5
  newParticleColor := 150
  collisionEnabled := true
  collisionElasticity := 4 / 5
  collisionDistance := 10
  collisionHighlightDuration := 15
  collisionHighlightColor := 230

/-! ## Host functions -/

/-- Modelled from the spec: the host library function `lerp(start, stop, amt)`
is missing from the sources; the spec calls it linear interpolation, which is
`start + (stop - start) * amt`. -/
def lerp (start stop amt : K) : K := (stop - start) * amt + start

/-- Modelled from the spec: the host library function
`map(value, start1, stop1, start2, stop2)` is missing from the sources; the
spec calls it linear interpolation of `value` from the range
`[start1, stop1]` onto `[start2, stop2]`. -/
def map (value start1 stop1 start2 stop2 : K) : K :=
  (value - start1) / (stop1 - start1) * (stop2 - start2) + start2

/-- Modelled from the spec: the host library function `dist(x1, y1, x2, y2)`
is missing from the sources; the spec calls it the Euclidean distance. -/
def dist (sqrt : K → K) (x1 y1 x2 y2 : K) : K :=
  sqrt ((x2 - x1) * (x2 - x1) + (y2 - y1) * (y2 - y1))

/-- The property that makes `s x` the square root of `x`. -/
def IsSqrt (s : K → K) (x : K) : Prop := 0 ≤ s x ∧ s x * s x = x

/-! ## Particle -/

/-- The fields set by the constructor of `Particle` (lines 340-355). -/
structure Particle (K : Type) where
  positionX : K
  positionY : K
  velocityX : K
  velocityY : K
  originalColor : K
  currentColor : K
  isAffectedByCursor : Bool
  cursorInfluenceTimer : ℤ
  particleSize : K
  collisionTimer : ℤ
  lifespan : Option ℤ
  transitionToOriginalColor : Bool

namespace Particle

/-- The constructor `new Particle(positionX, positionY, velocityX, velocityY)`. -/
def new (cfg : Settings K) (positionX positionY velocityX velocityY : K) : Particle K where
  positionX := positionX
  positionY := positionY
  velocityX := velocityX
  velocityY := velocityY
  originalColor := cfg.particleColor
  currentColor := cfg.particleColor
  isAffectedByCursor := false
  cursorInfluenceTimer := 0
  particleSize := cfg.particleRadius
  collisionTimer := 0
  lifespan := none
  transitionToOriginalColor := false

/-- `Particle.respondToCursor` (lines 358-413).  The host functions `atan2`,
`cos` and `sin` are parameters. -/
def respondToCursor (cfg : Settings K) (sqrt : K → K) (atan2 : K → K → K) (cos sin : K → K)
    (p : Particle K) (cursorX cursorY influenceRadius repulsionStrength : K) : Particle K :=
  let distanceToCursor := dist sqrt p.positionX p.positionY cursorX cursorY
  if distanceToCursor < influenceRadius then
    let repulsionAngle := atan2 (p.positionY - cursorY) (p.positionX - cursorX)
    let repulsionForce := map distanceToCursor 0 influenceRadius repulsionStrength 0
    let pushedX := p.velocityX + cos repulsionAngle * repulsionForce
    let pushedY := p.velocityY + sin repulsionAngle * repulsionForce
    let maxVelocity := cfg.particleSpeed * 2
    let currentSpeed := sqrt (pushedX * pushedX + pushedY * pushedY)
    let p1 : Particle K :=
      if currentSpeed > maxVelocity then
        { p with velocityX := pushedX / currentSpeed * maxVelocity,
                 velocityY := pushedY / currentSpeed * maxVelocity }
      else
        { p with velocityX := pushedX, velocityY := pushedY }
    let p2 : Particle K := { p1 with isAffectedByCursor := true, cursorInfluenceTimer := 10 }
    if !p2.transitionToOriginalColor && p2.collisionTimer ≤ 0 then
      { p2 with currentColor := cfg.cursorHighlightColor }
    else p2
  else if p.cursorInfluenceTimer > 0 then
    let p1 : Particle K := { p with cursorInfluenceTimer := p.cursorInfluenceTimer - 1 }
    if p1.cursorInfluenceTimer == 0 && !p1.transitionToOriginalColor &&
        p1.collisionTimer ≤ 0 then
      { p1 with isAffectedByCursor := false, currentColor := p1.originalColor }
    else p1
  else p

/-- The fill colour `displayColor` chosen by `Particle.render` (lines 463-478). -/
def render.displayColor (cfg : Settings K) (p : Particle K) : K :=
  if p.collisionTimer > 0 then cfg.collisionHighlightColor
  else if p.transitionToOriginalColor then p.currentColor
  else if p.isAffectedByCursor then cfg.cursorHighlightColor
  else p.originalColor

/-- The diameter `size` chosen by `Particle.render` (lines 483-491). -/
def render.size (p : Particle K) : K :=
  if p.isAffectedByCursor then p.particleSize * (3 / 2)
  else if p.collisionTimer > 0 then p.particleSize * (13 / 10)
  else p.particleSize

end Particle

/-- What `Particle.render` hands to the host: `fill(fill)` followed by
`ellipse(x, y, size)`. -/
structure Disc (K : Type) where
  fill : K
  x : K
  y : K
  size : K

/-- `Particle.render` (lines 460-494). -/
def Particle.render (cfg : Settings K) (p : Particle K) : Disc K :=
  { fill := Particle.render.displayColor cfg p,
    x := p.positionX,
    y := p.positionY,
    size := Particle.render.size p }

/-! ## Particle system -/

/-- The fields set by the constructor of `ParticleConnectionSystem`
(lines 31-38); the host canvas handle is left out. -/
structure ParticleConnectionSystem (K : Type) where
  particles : List (Particle K)
  canvasWidth : K
  canvasHeight : K
  mousePositionX : K
  mousePositionY : K
  mouseIsActive : Bool

/-- The outcomes of the calls to `random` made by one run of `addParticle`:
the two velocity draws `random(-particleSpeed, particleSpeed)` and the two
position draws `random(canvasWidth)`, `random(canvasHeight)`, which are used
only when the coordinate that was passed is falsy. -/
structure AddDraws (K : Type) where
  velocityX : K
  velocityY : K
  positionX : K
  positionY : K

/-- The outcomes of the calls to `random` made by one iteration of the loop
of `handleMouseClick`: the two offsets `random(-10, 10)` and the draws of the
call to `addParticle`. -/
structure ClickDraws (K : Type) where
  offsetX : K
  offsetY : K
  add : AddDraws K

/-- The outcomes of the four calls to `random` made for one particle of
`createParticles`. -/
structure CreateDraws (K : Type) where
  positionX : K
  positionY : K
  velocityX : K
  velocityY : K

/-- What `createParticleConnections` hands to the host for one connection:
`stroke(stroke, opacity)` followed by `line(x1, y1, x2, y2)`. -/
structure ConnectionLine (K : Type) where
  stroke : K
  opacity : K
  x1 : K
  y1 : K
  x2 : K
  y2 : K

namespace ParticleConnectionSystem

/-- `ParticleConnectionSystem.addParticle` (lines 68-98).  The result is the
returned value (`none` for `null`) and the system after the call.  A finite
coordinate is falsy exactly when it is `0`, so `x || random(canvasWidth)` is
`if x = 0 then d.positionX else x`. -/
def addParticle (cfg : Settings K) (s : ParticleConnectionSystem K) (d : AddDraws K)
    (x y : K) (isFromClick : Bool) : Option (Particle K) × ParticleConnectionSystem K :=
  if s.particles.length < cfg.maxParticles then
    let speedMultiplier : K := if isFromClick then 3 / 2 else 1
    let newVelocityX := d.velocityX * speedMultiplier
    let newVelocityY := d.velocityY * speedMultiplier
    let created : Particle K :=
      Particle.new cfg
        (if x = 0 then d.positionX else x)
        (if y = 0 then d.positionY else y)
        newVelocityX
        newVelocityY
    let newParticle : Particle K :=
      if isFromClick then
        { created with
            currentColor := cfg.newParticleColor,
            lifespan := some cfg.particleLifespan,
            transitionToOriginalColor := true }
      else created
    (some newParticle, { s with particles := s.particles ++ [newParticle] })
  else (none, s)

/-- `ParticleConnectionSystem.removeParticle` (lines 101-105). -/
def removeParticle (s : ParticleConnectionSystem K) (index : ℤ) : ParticleConnectionSystem K :=
  if index ≥ 0 ∧ index < (s.particles.length : ℤ) then
    { s with particles := s.particles.eraseIdx index.toNat }
  else s

/-- `ParticleConnectionSystem.handleMouseClick` (lines 108-116); `draws i` are
the random outcomes of iteration `i` of the loop. -/
def handleMouseClick (cfg : Settings K) (s : ParticleConnectionSystem K)
    (draws : ℕ → ClickDraws K) (x y : K) : ParticleConnectionSystem K :=
  (List.range cfg.spawnParticleCount).foldl
    (fun acc i =>
      let offsetX := (draws i).offsetX
      let offsetY := (draws i).offsetY
      (addParticle cfg acc (draws i).add (x + offsetX) (y + offsetY) true).2)
    s

/-- The body of the inner loop of `handleParticleCollisions` (lines 127-179)
for the two particle objects `particleA`, `particleB`.  The result is `none`
when the code divides by a zero `distance` (JavaScript then stores `NaN`);
otherwise it is the two objects after the iteration. -/
def handleParticleCollisions.pair (cfg : Settings K) (sqrt : K → K)
    (particleA particleB : Particle K) : Option (Particle K × Particle K) :=
  let dx := particleB.positionX - particleA.positionX
  let dy := particleB.positionY - particleA.positionY
  let distance := sqrt (dx * dx + dy * dy)
  if distance < cfg.collisionDistance then
    if distance = 0 then none
    else
      let nx := dx / distance
      let ny := dy / distance
      let vx := particleB.velocityX - particleA.velocityX
      let vy := particleB.velocityY - particleA.velocityY
      let velocityAlongNormal := vx * nx + vy * ny
      if velocityAlongNormal > 0 then some (particleA, particleB)
      else
        let restitution := cfg.collisionElasticity
        let impulseScalar := -(1 + restitution) * velocityAlongNormal / 2
        let impulseX := impulseScalar * nx
        let impulseY := impulseScalar * ny
        let overlap := cfg.collisionDistance - distance
        let correctionX := nx * overlap * (1 / 2)
        let correctionY := ny * overlap * (1 / 2)
        some
          ({ particleA with
               velocityX := particleA.velocityX - impulseX,
               velocityY := particleA.velocityY - impulseY,
               positionX := particleA.positionX - correctionX,
               positionY := particleA.positionY - correctionY,
               collisionTimer := cfg.collisionHighlightDuration },
           { particleB with
               velocityX := particleB.velocityX + impulseX,
               velocityY := particleB.velocityY + impulseY,
               positionX := particleB.positionX + correctionX,
               positionY := particleB.positionY + correctionY,
               collisionTimer := cfg.collisionHighlightDuration })
  else some (particleA, particleB)

/-- One iteration of the inner loop of `handleParticleCollisions` on the
particle array: the objects at indices `i` and `j` are read, handled by
`handleParticleCollisions.pair`, and the array holds the mutated objects. -/
def handleParticleCollisions.step (cfg : Settings K) (sqrt : K → K)
    (ps : List (Particle K)) (i j : ℕ) : Option (List (Particle K)) :=
  match ps[i]?, ps[j]? with
  | some particleA, some particleB =>
    (handleParticleCollisions.pair cfg sqrt particleA particleB).map
      fun r => (ps.set i r.1).set j r.2
  | _, _ => some ps

/-- The inner loop `for (let j = i + 1; j < this.particles.length; j++)`. -/
def handleParticleCollisions.inner (cfg : Settings K) (sqrt : K → K)
    (i : ℕ) (ps : List (Particle K)) : Option (List (Particle K)) :=
  (List.range' (i + 1) (ps.length - (i + 1))).foldlM
    (fun acc j => handleParticleCollisions.step cfg sqrt acc i j) ps

/-- `ParticleConnectionSystem.handleParticleCollisions` (lines 119-182). -/
def handleParticleCollisions (cfg : Settings K) (sqrt : K → K)
    (s : ParticleConnectionSystem K) : Option (ParticleConnectionSystem K) :=
  if !cfg.collisionEnabled then some s
  else
    ((List.range s.particles.length).foldlM
      (fun acc i => handleParticleCollisions.inner cfg sqrt i acc) s.particles).map
      fun ps => { s with particles := ps }

/-- The body of the loop of `manageParticleLifecycle` (lines 209-236) at
index `i`. -/
def manageParticleLifecycle.visit (cfg : Settings K) (s : ParticleConnectionSystem K)
    (i : ℕ) : ParticleConnectionSystem K :=
  match s.particles[i]? with
  | none => s
  | some particle =>
    match particle.lifespan with
    | some lifespan =>
      let aged : Particle K := { particle with lifespan := some (lifespan - 1) }
      let recoloured : Particle K :=
        if aged.transitionToOriginalColor then
          let progress : K := 1 - ((lifespan - 1 : ℤ) : K) / (cfg.particleLifespan : K)
          { aged with
              currentColor := lerp cfg.newParticleColor cfg.particleColor progress }
        else aged
      let s1 : ParticleConnectionSystem K :=
        { s with particles := s.particles.set i recoloured }
      if lifespan - 1 ≤ 0 then
        -- the object leaves the array; its `collisionTimer` update is unobservable
        s1.removeParticle (i : ℤ)
      else if recoloured.collisionTimer > 0 then
        let cooled : Particle K :=
          { recoloured with collisionTimer := recoloured.collisionTimer - 1 }
        { s1 with particles := s1.particles.set i cooled }
      else s1
    | none =>
      if particle.collisionTimer > 0 then
        let cooled : Particle K :=
          { particle with collisionTimer := particle.collisionTimer - 1 }
        { s with particles := s.particles.set i cooled }
      else s

/-- The loop `for (let i = this.particles.length - 1; i >= 0; i--)`: with
`k` iterations left the index visited next is `k - 1`. -/
def manageParticleLifecycle.loop (cfg : Settings K) :
    ℕ → ParticleConnectionSystem K → ParticleConnectionSystem K
  | 0, s => s
  | k + 1, s => manageParticleLifecycle.loop cfg k (manageParticleLifecycle.visit cfg s k)

/-- `ParticleConnectionSystem.manageParticleLifecycle` (lines 206-238). -/
def manageParticleLifecycle (cfg : Settings K) (s : ParticleConnectionSystem K) :
    ParticleConnectionSystem K :=
  manageParticleLifecycle.loop cfg s.particles.length s

/-- `ParticleConnectionSystem.createParticles` (lines 52-65); `draws i` are the
random outcomes for the particle of index `i`. -/
def createParticles [FloorRing K] (cfg : Settings K) (s : ParticleConnectionSystem K)
    (draws : ℕ → CreateDraws K) : ParticleConnectionSystem K :=
  let scaleFactor := (s.canvasWidth * s.canvasHeight) / (1000 * 1000)
  let adjustedParticleCount : ℤ := ⌊cfg.particleCount * scaleFactor⌋
  { s with
      particles :=
        (List.range adjustedParticleCount.toNat).map fun i =>
          Particle.new cfg (draws i).positionX (draws i).positionY
            (draws i).velocityX (draws i).velocityY }

/-- `ParticleConnectionSystem.createParticleConnections` (lines 298-335): the
lines drawn, in drawing order. -/
def createParticleConnections (cfg : Settings K) (sqrt : K → K)
    (s : ParticleConnectionSystem K) : List (ConnectionLine K) :=
  let scaledThreshold := cfg.connectionThreshold * min s.canvasWidth s.canvasHeight / 500
  (List.range s.particles.length).flatMap fun i =>
    (List.range' (i + 1) (s.particles.length - (i + 1))).flatMap fun j =>
      match s.particles[i]?, s.particles[j]? with
      | some currentParticle, some targetParticle =>
        let distanceBetweenParticles :=
          dist sqrt currentParticle.positionX currentParticle.positionY
            targetParticle.positionX targetParticle.positionY
        if distanceBetweenParticles < scaledThreshold then
          let connectionOpacity := map distanceBetweenParticles 0 scaledThreshold 180 50
          [{ stroke := 150, opacity := connectionOpacity,
             x1 := currentParticle.positionX, y1 := currentParticle.positionY,
             x2 := targetParticle.positionX, y2 := targetParticle.positionY }]
        else []
      | _, _ => []

end ParticleConnectionSystem

/-! ## Auxiliary definitions used to state the properties -/

/-- What one pass of `manageParticleLifecycle` does to a single particle:
`none` when the particle is removed, otherwise the particle after the pass. -/
def lifecycleTick (cfg : Settings K) (particle : Particle K) : Option (Particle K) :=
  match particle.lifespan with
  | some lifespan =>
    if lifespan - 1 ≤ 0 then none
    else
      let colour : K :=
        if particle.transitionToOriginalColor then
          lerp cfg.newParticleColor cfg.particleColor
            (1 - ((lifespan - 1 : ℤ) : K) / (cfg.particleLifespan : K))
        else particle.currentColor
      some { particle with
               lifespan := some (lifespan - 1),
               currentColor := colour,
               collisionTimer :=
                 if particle.collisionTimer > 0 then particle.collisionTimer - 1
                 else particle.collisionTimer }
  | none =>
    some { particle with
             collisionTimer :=
               if particle.collisionTimer > 0 then particle.collisionTimer - 1
               else particle.collisionTimer }

/-- The `distance` that `handleParticleCollisions` computes for the pair
`(a, b)`. -/
def separation (sqrt : K → K) (a b : Particle K) : K :=
  sqrt ((b.positionX - a.positionX) * (b.positionX - a.positionX) +
    (b.positionY - a.positionY) * (b.positionY - a.positionY))

/-- The collision normal `(nx, ny)` that `handleParticleCollisions` computes
for the pair `(a, b)`: first component. -/
def normalX (sqrt : K → K) (a b : Particle K) : K :=
  (b.positionX - a.positionX) / separation sqrt a b

/-- The collision normal of the pair `(a, b)`: second component. -/
def normalY (sqrt : K → K) (a b : Particle K) : K :=
  (b.positionY - a.positionY) / separation sqrt a b

/-- The component of the vector `(vx, vy)` along the collision normal of the
pair `(a, b)`. -/
def alongNormal (sqrt : K → K) (a b : Particle K) (vx vy : K) : K :=
  vx * normalX sqrt a b + vy * normalY sqrt a b

/-- The component of the vector `(vx, vy)` along the tangent `(-ny, nx)` of the
pair `(a, b)`. -/
def alongTangent (sqrt : K → K) (a b : Particle K) (vx vy : K) : K :=
  vx * (-normalY sqrt a b) + vy * normalX sqrt a b

/-- The `scaledThreshold` that `createParticleConnections` computes. -/
def scaledThreshold (cfg : Settings K) (s : ParticleConnectionSystem K) : K :=
  cfg.connectionThreshold * min s.canvasWidth s.canvasHeight / 500

/-- The line that `createParticleConnections` draws from `currentParticle` to
`targetParticle` when it connects them. -/
def connectionBetween (cfg : Settings K) (sqrt : K → K) (s : ParticleConnectionSystem K)
    (currentParticle targetParticle : Particle K) : ConnectionLine K :=
  { stroke := 150,
    opacity :=
      map (dist sqrt currentParticle.positionX currentParticle.positionY
          targetParticle.positionX targetParticle.positionY)
        0 (scaledThreshold cfg s) 180 50,
    x1 := currentParticle.positionX, y1 := currentParticle.positionY,
    x2 := targetParticle.positionX, y2 := targetParticle.positionY }

/-- The largest `k ≤ fuel` with `k * k ≤ n`. -/
def natSqrtUpTo (n : ℕ) : ℕ → ℕ
  | 0 => 0
  | k + 1 => if (k + 1) * (k + 1) ≤ n then k + 1 else natSqrtUpTo n k

/-- A computable square root on the non-negative rationals, exact on the
squares of rationals; it instantiates `sqrt` at concrete inputs. -/
def ratSqrt (x : ℚ) : ℚ :=
  (natSqrtUpTo x.num.toNat x.num.toNat : ℚ) / (natSqrtUpTo x.den x.den : ℚ)

/-! ## Concrete inputs -/

/-- An empty system on a 1000 x 1000 canvas. -/
def emptySystem : ParticleConnectionSystem ℚ :=
  { particles := [], canvasWidth := 1000, canvasHeight := 1000,
    mousePositionX := 0, mousePositionY := 0, mouseIsActive := false }

/-- A system on a 1000 x 1000 canvas that holds `n` permanent particles at rest
at `(1, 1)`. -/
def crowdedSystem (n : ℕ) : ParticleConnectionSystem ℚ :=
  { emptySystem with particles := List.replicate n (Particle.new NETWORK_SETTINGS 1 1 0 0) }

/-- Draws for `addParticle`: both velocity draws are `1`, the position draws
are `(700, 800)`. -/
def sampleAddDraws : AddDraws ℚ :=
  { velocityX := 1, velocityY := 1, positionX := 700, positionY := 800 }

/-- Draws for `handleMouseClick` whose offsets are `(-5, 0)` in every iteration. -/
def leftwardDraws : ℕ → ClickDraws ℚ :=
  fun _ => { offsetX := -5, offsetY := 0, add := sampleAddDraws }

/-- The particle that a click at `(500, 500)` with zero jitter adds to the
empty system. -/
def clickParticle : Particle ℚ :=
  { Particle.new NETWORK_SETTINGS 500 500 (3 / 2) (3 / 2) with
      currentColor := (NETWORK_SETTINGS : Settings ℚ).newParticleColor,
      lifespan := some (NETWORK_SETTINGS : Settings ℚ).particleLifespan,
      transitionToOriginalColor := true }

/-- A permanent particle at rest at `(1, 1)`. -/
def restingParticle : Particle ℚ := Particle.new NETWORK_SETTINGS 1 1 0 0

/-- Particle A of the head-on scenario: at `(0, 0)` with velocity `(5, 0)`. -/
def headOnA : Particle K := Particle.new NETWORK_SETTINGS 0 0 5 0

/-- Particle B of the head-on scenario: at `(5, 0)` with velocity `(-5, 0)`. -/
def headOnB : Particle K := Particle.new NETWORK_SETTINGS 5 0 (-5) 0

/-- The head-on scenario: the two particles alone on a 1000 x 1000 canvas. -/
def headOnSystem : ParticleConnectionSystem K :=
  { particles := [headOnA, headOnB], canvasWidth := 1000, canvasHeight := 1000,
    mousePositionX := 0, mousePositionY := 0, mouseIsActive := false }

/-- A permanent particle at rest at `(1, 1)` that is both pointer-affected and
in its collision glow. -/
def glowingTouchedParticle : Particle ℚ :=
  { restingParticle with isAffectedByCursor := true, collisionTimer := 3 }

/-- Particle A of the overlap-at-rest scenario: at `(0, 0)`, not moving. -/
def stillA : Particle ℚ := Particle.new NETWORK_SETTINGS 0 0 0 0

/-- Particle B of the overlap-at-rest scenario: at `(5, 0)`, not moving. -/
def stillB : Particle ℚ := Particle.new NETWORK_SETTINGS 5 0 0 0

/-- Particle A of the parting scenario: at `(0, 0)` with velocity `(-5, 0)`. -/
def partingA : Particle ℚ := Particle.new NETWORK_SETTINGS 0 0 (-5) 0

/-- Particle B of the parting scenario: at `(5, 0)` with velocity `(5, 0)`. -/
def partingB : Particle ℚ := Particle.new NETWORK_SETTINGS 5 0 5 0

/-- A pointer-affected particle in its collision glow, one frame before its
cursor fade ends. -/
def fadingGlowingParticle : Particle ℚ :=
  { glowingTouchedParticle with cursorInfluenceTimer := 1 }

/-- Host trigonometry for a cursor straight on the particle: `atan2(0, 0) = 0`. -/
def atan2AtOrigin : ℚ → ℚ → ℚ := fun _ _ => 0

/-- Host trigonometry at the angle 0: `cos(0) = 1`. -/
def cosAtZero : ℚ → ℚ := fun _ => 1

/-- Host trigonometry at the angle 0: `sin(0) = 0`. -/
def sinAtZero : ℚ → ℚ := fun _ => 0

/-- An empty system on a 2000 x 1500 canvas. -/
def wideSystem : ParticleConnectionSystem K :=
  { particles := [], canvasWidth := 2000, canvasHeight := 1500,
    mousePositionX := 0, mousePositionY := 0, mouseIsActive := false }

/-- Draws for `createParticles`: particle `i` is created at `(i, i)` with
velocity `(1, -1)`. -/
def diagonalDraws : ℕ → CreateDraws ℚ :=
  fun i => { positionX := i, positionY := i, velocityX := 1, velocityY := -1 }

/-! ## Boundary reflection -/

open ParticleConnectionSystem

theorem addParticle_full (cfg : Settings K) (s : ParticleConnectionSystem K) (d : AddDraws K)
    (x y : K) (isFromClick : Bool) (h : ¬ s.particles.length < cfg.maxParticles) :
    addParticle cfg s d x y isFromClick = (none, s) := by
  unfold addParticle
  rw [if_neg h]

theorem addParticle_room (cfg : Settings K) (s : ParticleConnectionSystem K) (d : AddDraws K)
    (x y : K) (isFromClick : Bool) (h : s.particles.length < cfg.maxParticles) :
    ∃ p : Particle K,
      addParticle cfg s d x y isFromClick =
        (some p, { s with particles := s.particles ++ [p] }) ∧
      p.positionX = (if x = 0 then d.positionX else x) ∧
      p.positionY = (if y = 0 then d.positionY else y) ∧
      (isFromClick = true →
        p.currentColor = cfg.newParticleColor ∧
        p.lifespan = some cfg.particleLifespan ∧
        p.transitionToOriginalColor = true) := by
  unfold addParticle
  rw [if_pos h]
  refine ⟨_, rfl, ?_, ?_, ?_⟩
  · cases isFromClick <;> rfl
  · cases isFromClick <;> rfl
  · intro hc
    subst hc
    exact ⟨rfl, rfl, rfl⟩

/-- C2: `addParticle` never grows the collection past `maxParticles`: with
`particles.length >= maxParticles` it returns `null` and changes nothing; with
`particles.length < maxParticles` it returns the new particle, appends exactly
that particle at the end, and the resulting length is at most `maxParticles`. -/
theorem addParticle_respects_maxParticles (cfg : Settings K) (s : ParticleConnectionSystem K)
    (d : AddDraws K) (x y : K) (isFromClick : Bool) :
    (cfg.maxParticles ≤ s.particles.length →
      addParticle cfg s d x y isFromClick = (none, s)) ∧
    (s.particles.length < cfg.maxParticles →
      ∃ p : Particle K,
        (addParticle cfg s d x y isFromClick).1 = some p ∧
        (addParticle cfg s d x y isFromClick).2 = { s with particles := s.particles ++ [p] } ∧
        (addParticle cfg s d x y isFromClick).2.particles.length ≤ cfg.maxParticles) := by
  constructor
  · intro h
    exact addParticle_full cfg s d x y isFromClick (Nat.not_lt.mpr h)
  · intro h
    obtain ⟨p, hp, -⟩ := addParticle_room cfg s d x y isFromClick h
    refine ⟨p, ?_, ?_, ?_⟩
    · rw [hp]
    · rw [hp]
    · rw [hp]
      simp only [List.length_append, List.length_singleton]
      omega

theorem addParticle_respects_maxParticles_witness :
    ∃ p : Particle ℚ,
      (addParticle NETWORK_SETTINGS emptySystem sampleAddDraws 3 4 false).1 = some p ∧
      (addParticle NETWORK_SETTINGS emptySystem sampleAddDraws 3 4 false).2 =
        { emptySystem with particles := emptySystem.particles ++ [p] } ∧
      (addParticle NETWORK_SETTINGS emptySystem sampleAddDraws 3 4 false).2.particles.length ≤
        (NETWORK_SETTINGS : Settings ℚ).maxParticles :=
  (addParticle_respects_maxParticles NETWORK_SETTINGS emptySystem sampleAddDraws 3 4 false).2
    (by decide)

/-- The position at which iteration `i` of `handleMouseClick` creates its
particle. -/
theorem handleMouseClick_loop (cfg : Settings K) (draws : ℕ → ClickDraws K) (x y : K) (n : ℕ)
    (s : ParticleConnectionSystem K) :
    ∃ added : List (Particle K),
      (List.range n).foldl
          (fun acc i =>
            (addParticle cfg acc (draws i).add (x + (draws i).offsetX)
              (y + (draws i).offsetY) true).2) s =
        { s with particles := s.particles ++ added } ∧
      added.length = min n (cfg.maxParticles - s.particles.length) ∧
      ∀ p ∈ added,
        p.currentColor = cfg.newParticleColor ∧
        p.lifespan = some cfg.particleLifespan ∧
        p.transitionToOriginalColor = true ∧
        ∃ i, i < n ∧
          p.positionX =
            (if x + (draws i).offsetX = 0 then (draws i).add.positionX
             else x + (draws i).offsetX) ∧
          p.positionY =
            (if y + (draws i).offsetY = 0 then (draws i).add.positionY
             else y + (draws i).offsetY) := by
  induction n with
  | zero =>
    refine ⟨[], ?_, ?_, ?_⟩
    · simp
    · simp
    · intro p hp
      cases hp
  | succ n ih =>
    obtain ⟨added, hfold, hlen, hall⟩ := ih
    rw [List.range_succ, List.foldl_append, hfold]
    simp only [List.foldl_cons, List.foldl_nil]
    by_cases hroom : (s.particles ++ added).length < cfg.maxParticles
    · obtain ⟨p, hp, hpx, hpy, hclick⟩ :=
        addParticle_room cfg { s with particles := s.particles ++ added } (draws n).add
          (x + (draws n).offsetX) (y + (draws n).offsetY) true hroom
      obtain ⟨hc, hl, ht⟩ := hclick rfl
      refine ⟨added ++ [p], ?_, ?_, ?_⟩
      · rw [hp]
        simp
      · simp only [List.length_append, List.length_singleton] at hroom ⊢
        omega
      · intro q hq
        rcases List.mem_append.mp hq with hq | hq
        · obtain ⟨h1, h2, h3, i, hi, h4, h5⟩ := hall q hq
          exact ⟨h1, h2, h3, i, Nat.lt_succ_of_lt hi, h4, h5⟩
        · rw [List.mem_singleton] at hq
          subst hq
          exact ⟨hc, hl, ht, n, Nat.lt_succ_self n, hpx, hpy⟩
    · refine ⟨added, ?_, ?_, ?_⟩
      · rw [addParticle_full cfg _ _ _ _ _ hroom]
      · simp only [List.length_append] at hroom
        omega
      · intro q hq
        obtain ⟨h1, h2, h3, i, hi, h4, h5⟩ := hall q hq
        exact ⟨h1, h2, h3, i, Nat.lt_succ_of_lt hi, h4, h5⟩

theorem handleMouseClick_spec (cfg : Settings K) (s : ParticleConnectionSystem K)
    (draws : ℕ → ClickDraws K) (x y : K) :
    ∃ added : List (Particle K),
      handleMouseClick cfg s draws x y = { s with particles := s.particles ++ added } ∧
      added.length = min cfg.spawnParticleCount (cfg.maxParticles - s.particles.length) ∧
      ∀ p ∈ added,
        p.currentColor = cfg.newParticleColor ∧
        p.lifespan = some cfg.particleLifespan ∧
        p.transitionToOriginalColor = true ∧
        ∃ i, i < cfg.spawnParticleCount ∧
          p.positionX =
            (if x + (draws i).offsetX = 0 then (draws i).add.positionX
             else x + (draws i).offsetX) ∧
          p.positionY =
            (if y + (draws i).offsetY = 0 then (draws i).add.positionY
             else y + (draws i).offsetY) :=
  handleMouseClick_loop cfg draws x y cfg.spawnParticleCount s

/-- C7 fails as stated: with 198 particles (below `maxParticles = 200`) a click
adds two particles, not five. -/
theorem handleMouseClick_adds_fewer_near_max :
    (crowdedSystem 198).particles.length < (NETWORK_SETTINGS : Settings ℚ).maxParticles ∧
    (handleMouseClick NETWORK_SETTINGS (crowdedSystem 198) leftwardDraws 500 500).particles.length
      = 200 ∧
    (handleMouseClick NETWORK_SETTINGS (crowdedSystem 198) leftwardDraws 500 500).particles.length
      ≠ (crowdedSystem 198).particles.length +
          (NETWORK_SETTINGS : Settings ℚ).spawnParticleCount := by
  obtain ⟨added, hrun, hlen, -⟩ :=
    handleMouseClick_spec NETWORK_SETTINGS (crowdedSystem 198) leftwardDraws 500 500
  have h198 : (crowdedSystem 198).particles.length = 198 := by
    simp only [crowdedSystem, List.length_replicate]
  rw [hrun]
  simp only [List.length_append, h198, hlen]
  decide

/-- C7 (amended): a click appends `min spawnParticleCount (maxParticles - count)`
new particles after the existing ones, which stay unchanged and in place (as
does the rest of the system); when `count + spawnParticleCount <= maxParticles`
that is exactly `spawnParticleCount` particles. -/
theorem handleMouseClick_count (cfg : Settings K) (s : ParticleConnectionSystem K)
    (draws : ℕ → ClickDraws K) (x y : K) :
    ∃ added : List (Particle K),
      handleMouseClick cfg s draws x y = { s with particles := s.particles ++ added } ∧
      added.length = min cfg.spawnParticleCount (cfg.maxParticles - s.particles.length) ∧
      (s.particles.length + cfg.spawnParticleCount ≤ cfg.maxParticles →
        (handleMouseClick cfg s draws x y).particles.length =
          s.particles.length + cfg.spawnParticleCount) := by
  obtain ⟨added, hrun, hlen, -⟩ := handleMouseClick_spec cfg s draws x y
  refine ⟨added, hrun, hlen, ?_⟩
  intro hroom
  rw [hrun]
  simp only [List.length_append, hlen]
  omega

theorem handleMouseClick_count_witness :
    (handleMouseClick NETWORK_SETTINGS emptySystem leftwardDraws 500 500).particles.length =
      emptySystem.particles.length + (NETWORK_SETTINGS : Settings ℚ).spawnParticleCount := by
  obtain ⟨added, -, -, h⟩ :=
    handleMouseClick_count NETWORK_SETTINGS emptySystem leftwardDraws 500 500
  exact h (by decide)

/-- C8: at the click point `(5, 300)` with jitter offsets `(-5, 0)` (both
within `[-10, 10]`) the jittered abscissa is `0`, which `addParticle` takes
for a missing coordinate: the particle is created at the random abscissa
`700`, more than 10 units away from the click. -/
theorem handleMouseClick_zero_abscissa_displaced :
    (∀ i, |(leftwardDraws i).offsetX| ≤ 10 ∧ |(leftwardDraws i).offsetY| ≤ 10) ∧
    ∃ p ∈ (handleMouseClick NETWORK_SETTINGS emptySystem leftwardDraws 5 300).particles,
      p.positionX = 700 ∧ ¬ |p.positionX - 5| ≤ 10 := by
  constructor
  · intro i
    simp only [leftwardDraws]
    constructor <;> norm_num [abs_le]
  · obtain ⟨added, hrun, hlen, hall⟩ :=
      handleMouseClick_spec NETWORK_SETTINGS emptySystem leftwardDraws 5 300
    have hlen5 : added.length = 5 := by
      rw [hlen]
      decide
    obtain ⟨p, rest, hadded⟩ : ∃ p rest, added = p :: rest := by
      cases added with
      | nil => simp at hlen5
      | cons p rest => exact ⟨p, rest, rfl⟩
    have hmem : p ∈ added := by
      rw [hadded]
      exact List.mem_cons_self p rest
    obtain ⟨-, -, -, i, -, hx, -⟩ := hall p hmem
    have hpx : p.positionX = 700 := by
      rw [hx]
      norm_num [leftwardDraws, sampleAddDraws]
    refine ⟨p, ?_, hpx, ?_⟩
    · rw [hrun]
      exact List.mem_append_right _ hmem
    · rw [hpx]
      norm_num [abs_le]

/-- Away from the zero coordinate the jitter bound of C8 holds: when no
jittered coordinate is `0` and every offset lies in `[-10, 10]`, every added
particle is within 10 units of the click point on each axis and carries the
spawn colour, the configured lifespan and the transition flag. -/
theorem handleMouseClick_jitter_bound (cfg : Settings K) (s : ParticleConnectionSystem K)
    (draws : ℕ → ClickDraws K) (x y : K)
    (hoff : ∀ i, |(draws i).offsetX| ≤ 10 ∧ |(draws i).offsetY| ≤ 10)
    (hnz : ∀ i, x + (draws i).offsetX ≠ 0 ∧ y + (draws i).offsetY ≠ 0) :
    ∃ added : List (Particle K),
      handleMouseClick cfg s draws x y = { s with particles := s.particles ++ added } ∧
      ∀ p ∈ added,
        |p.positionX - x| ≤ 10 ∧ |p.positionY - y| ≤ 10 ∧
        p.currentColor = cfg.newParticleColor ∧
        p.lifespan = some cfg.particleLifespan ∧
        p.transitionToOriginalColor = true := by
  obtain ⟨added, hrun, -, hall⟩ := handleMouseClick_spec cfg s draws x y
  refine ⟨added, hrun, ?_⟩
  intro p hp
  obtain ⟨hc, hl, ht, i, -, hx, hy⟩ := hall p hp
  rw [if_neg (hnz i).1] at hx
  rw [if_neg (hnz i).2] at hy
  refine ⟨?_, ?_, hc, hl, ht⟩
  · rw [hx, add_sub_cancel_left]
    exact (hoff i).1
  · rw [hy, add_sub_cancel_left]
    exact (hoff i).2

/-! ## Lifecycle -/

theorem getElem?_middle {α : Type} (l1 l2 : List α) (a : α) :
    (l1 ++ a :: l2)[l1.length]? = some a := by
  induction l1 with
  | nil => simp
  | cons b l ih => simpa using ih

theorem set_middle {α : Type} (l1 l2 : List α) (a b : α) :
    (l1 ++ a :: l2).set l1.length b = l1 ++ b :: l2 := by
  induction l1 with
  | nil => rfl
  | cons c l ih => simp

theorem eraseIdx_middle {α : Type} (l1 l2 : List α) (a : α) :
    (l1 ++ a :: l2).eraseIdx l1.length = l1 ++ l2 := by
  induction l1 with
  | nil => rfl
  | cons c l ih => simpa using ih

/-- One visit of the lifecycle loop replaces the visited particle by its
`lifecycleTick`. -/
theorem manageParticleLifecycle_visit_middle (cfg : Settings K) (s : ParticleConnectionSystem K)
    (l1 l2 : List (Particle K)) (a : Particle K) (hs : s.particles = l1 ++ a :: l2) :
    manageParticleLifecycle.visit cfg s l1.length =
      { s with particles := l1 ++ ((lifecycleTick cfg a).toList ++ l2) } := by
  unfold manageParticleLifecycle.visit lifecycleTick
  rw [hs, getElem?_middle]
  dsimp only
  cases hl : a.lifespan with
  | none =>
    dsimp only
    by_cases hc : a.collisionTimer > 0
    · simp only [if_pos hc, set_middle, Option.toList, List.cons_append, List.nil_append]
    · simp only [if_neg hc, Option.toList, List.cons_append, List.nil_append]
      cases s
      cases a
      simp_all
  | some lifespan =>
    dsimp only
    by_cases hdead : lifespan - 1 ≤ 0
    · simp only [if_pos hdead, removeParticle, set_middle, List.length_append,
        List.length_cons, Option.toList, List.nil_append]
      rw [if_pos (by constructor <;> omega)]
      simp only [Int.toNat_natCast, eraseIdx_middle]
    · simp only [if_neg hdead, set_middle, Option.toList, List.cons_append, List.nil_append]
      by_cases ht : a.transitionToOriginalColor = true
      · by_cases hc : a.collisionTimer > 0
        · simp [ht, hc, set_middle]
        · simp [ht, hc, set_middle]
      · by_cases hc : a.collisionTimer > 0
        · simp [ht, hc, set_middle]
        · simp [ht, hc, set_middle]

theorem filterMap_singleton_toList {α β : Type} (f : α → Option β) (a : α) :
    [a].filterMap f = (f a).toList := by
  cases h : f a <;> simp [List.filterMap_cons, h, Option.toList]

/-- The lifecycle loop with `k` iterations left has rewritten the particles
behind index `k` and rewrites the first `k` ones by `lifecycleTick`. -/
theorem manageParticleLifecycle_loop_eq (cfg : Settings K) :
    ∀ (k : ℕ) (s : ParticleConnectionSystem K) (l1 l2 : List (Particle K)),
      s.particles = l1 ++ l2 → l1.length = k →
      manageParticleLifecycle.loop cfg k s =
        { s with particles := l1.filterMap (lifecycleTick cfg) ++ l2 } := by
  intro k
  induction k with
  | zero =>
    intro s l1 l2 hs hlen
    have hnil : l1 = [] := List.length_eq_zero.mp hlen
    subst hnil
    cases s
    simp_all [manageParticleLifecycle.loop]
  | succ k ih =>
    intro s l1 l2 hs hlen
    rcases List.eq_nil_or_concat l1 with hnil | ⟨front, a, hcat⟩
    · subst hnil
      simp at hlen
    · rw [List.concat_eq_append] at hcat
      subst hcat
      have hfront : front.length = k := by
        simpa using hlen
      have hs2 : s.particles = front ++ a :: l2 := by
        rw [hs]
        simp
      have hvisit := manageParticleLifecycle_visit_middle cfg s front l2 a hs2
      rw [hfront] at hvisit
      rw [manageParticleLifecycle.loop, hvisit,
        ih _ front ((lifecycleTick cfg a).toList ++ l2) rfl hfront]
      simp only [List.filterMap_append, filterMap_singleton_toList, List.append_assoc]

/-- One pass of `manageParticleLifecycle` maps `lifecycleTick` over the
collection and drops the particles it removes. -/
theorem manageParticleLifecycle_eq (cfg : Settings K) (s : ParticleConnectionSystem K) :
    manageParticleLifecycle cfg s =
      { s with particles := s.particles.filterMap (lifecycleTick cfg) } := by
  unfold manageParticleLifecycle
  rw [manageParticleLifecycle_loop_eq cfg s.particles.length s s.particles []
    (List.append_nil _).symm rfl]
  simp

theorem manageParticleLifecycle_iterate (cfg : Settings K) (k : ℕ)
    (s : ParticleConnectionSystem K) :
    (manageParticleLifecycle cfg)^[k] s =
      { s with particles := (List.filterMap (lifecycleTick cfg))^[k] s.particles } := by
  induction k generalizing s with
  | zero => rfl
  | succ k ih =>
    rw [Function.iterate_succ_apply, ih, manageParticleLifecycle_eq, Function.iterate_succ_apply]

theorem filterMap_iterate_append {α : Type} (f : α → Option α) (k : ℕ) (l1 l2 : List α) :
    (List.filterMap f)^[k] (l1 ++ l2) =
      (List.filterMap f)^[k] l1 ++ (List.filterMap f)^[k] l2 := by
  induction k generalizing l1 l2 with
  | zero => rfl
  | succ k ih =>
    rw [Function.iterate_succ_apply, Function.iterate_succ_apply, Function.iterate_succ_apply,
      List.filterMap_append, ih]

/-- Iterated lifecycle passes act on each part of the collection separately. -/
theorem manageParticleLifecycle_iterate_split (cfg : Settings K) (k : ℕ)
    (s : ParticleConnectionSystem K) (pre post : List (Particle K)) (p : Particle K)
    (hs : s.particles = pre ++ p :: post) :
    ((manageParticleLifecycle cfg)^[k] s).particles =
      ((manageParticleLifecycle cfg)^[k] { s with particles := pre }).particles ++
        ((List.filterMap (lifecycleTick cfg))^[k] [p] ++
          ((manageParticleLifecycle cfg)^[k] { s with particles := post }).particles) := by
  simp only [manageParticleLifecycle_iterate, hs]
  rw [filterMap_iterate_append]
  congr 1
  exact filterMap_iterate_append (lifecycleTick cfg) k [p] post

theorem lifecycleTick_alive (cfg : Settings K) (q : Particle K) (l : ℤ)
    (hl : q.lifespan = some l) (hlive : ¬ l - 1 ≤ 0) :
    ∃ r : Particle K,
      lifecycleTick cfg q = some r ∧
      r.lifespan = some (l - 1) ∧
      { r with lifespan := q.lifespan, currentColor := q.currentColor,
               collisionTimer := q.collisionTimer } = q := by
  unfold lifecycleTick
  rw [hl]
  dsimp only
  rw [if_neg hlive]
  refine ⟨_, rfl, rfl, ?_⟩
  cases q
  simp_all

theorem lifecycleTick_expired (cfg : Settings K) (q : Particle K) (l : ℤ)
    (hl : q.lifespan = some l) (hdead : l - 1 ≤ 0) :
    lifecycleTick cfg q = none := by
  unfold lifecycleTick
  rw [hl]
  dsimp only
  rw [if_pos hdead]

theorem lifecycleTick_permanent (cfg : Settings K) (q : Particle K) (hl : q.lifespan = none) :
    ∃ r : Particle K,
      lifecycleTick cfg q = some r ∧
      r.lifespan = none ∧
      { r with collisionTimer := q.collisionTimer } = q := by
  unfold lifecycleTick
  rw [hl]
  dsimp only
  refine ⟨_, rfl, rfl, ?_⟩
  cases q
  simp_all

/-- A particle with lifespan `L` is still present after `k < L` passes, with
lifespan `L - k`; only `lifespan`, `currentColor` and `collisionTimer` differ. -/
theorem lifecycle_iterate_alive (cfg : Settings K) (p : Particle K) (L : ℤ)
    (hp : p.lifespan = some L) :
    ∀ k : ℕ, (k : ℤ) < L →
      ∃ q : Particle K,
        (List.filterMap (lifecycleTick cfg))^[k] [p] = [q] ∧
        q.lifespan = some (L - k) ∧
        { q with lifespan := p.lifespan, currentColor := p.currentColor,
                 collisionTimer := p.collisionTimer } = p := by
  intro k
  induction k with
  | zero =>
    intro _
    refine ⟨p, rfl, ?_, rfl⟩
    simpa using hp
  | succ k ih =>
    intro hk
    obtain ⟨q, hq, hql, hsame⟩ := ih (by push_cast at hk; omega)
    have hlive : ¬ (L - (k : ℤ) - 1 ≤ 0) := by
      push_cast at hk
      omega
    obtain ⟨r, hr, hrl, hrsame⟩ := lifecycleTick_alive cfg q _ hql hlive
    refine ⟨r, ?_, ?_, ?_⟩
    · rw [Function.iterate_succ_apply', hq, filterMap_singleton_toList, hr]
      rfl
    · rw [hrl]
      congr 1
      push_cast
      ring
    · rw [← hsame, ← hrsame]

theorem lifecycle_iterate_expired (cfg : Settings K) (p : Particle K) (L : ℕ)
    (hp : p.lifespan = some (L : ℤ)) (hL : 0 < L) :
    (List.filterMap (lifecycleTick cfg))^[L] [p] = [] := by
  obtain ⟨k, rfl⟩ : ∃ k, L = k + 1 := ⟨L - 1, by omega⟩
  obtain ⟨q, hq, hql, -⟩ := lifecycle_iterate_alive cfg p _ hp k (by push_cast; omega)
  rw [Function.iterate_succ_apply', hq, filterMap_singleton_toList,
    lifecycleTick_expired cfg q _ hql (by push_cast; omega)]
  rfl

theorem lifecycle_iterate_permanent (cfg : Settings K) (p : Particle K)
    (hp : p.lifespan = none) (k : ℕ) :
    ∃ q : Particle K,
      (List.filterMap (lifecycleTick cfg))^[k] [p] = [q] ∧
      q.lifespan = none ∧
      { q with collisionTimer := p.collisionTimer } = p := by
  induction k with
  | zero => exact ⟨p, rfl, hp, rfl⟩
  | succ k ih =>
    obtain ⟨q, hq, hql, hsame⟩ := ih
    obtain ⟨r, hr, hrl, hrsame⟩ := lifecycleTick_permanent cfg q hql
    refine ⟨r, ?_, hrl, ?_⟩
    · rw [Function.iterate_succ_apply', hq, filterMap_singleton_toList, hr]
      rfl
    · rw [← hsame, ← hrsame]

/-- C9: in any collection, a particle with lifespan `L > 0` (for a
click-spawned particle `L = particleLifespan = 300`) is, after `k < L`
successive `manageParticleLifecycle` passes, still at its place between what
the passes make of the particles before and behind it, with lifespan `L - k`
and nothing changed but `lifespan`, `currentColor` and `collisionTimer`; after
exactly `L` passes it is gone.  A particle with undefined lifespan is still
there after any number of passes. -/
theorem lifecycle_countdown (cfg : Settings K) (s : ParticleConnectionSystem K)
    (pre post : List (Particle K)) (p : Particle K) (hs : s.particles = pre ++ p :: post) :
    (∀ L : ℕ, 0 < L → p.lifespan = some (L : ℤ) →
      (∀ k : ℕ, k < L →
        ∃ q : Particle K,
          ((manageParticleLifecycle cfg)^[k] s).particles =
            ((manageParticleLifecycle cfg)^[k] { s with particles := pre }).particles ++
              q :: ((manageParticleLifecycle cfg)^[k] { s with particles := post }).particles ∧
          q.lifespan = some ((L : ℤ) - k) ∧
          { q with lifespan := p.lifespan, currentColor := p.currentColor,
                   collisionTimer := p.collisionTimer } = p) ∧
      ((manageParticleLifecycle cfg)^[L] s).particles =
        ((manageParticleLifecycle cfg)^[L] { s with particles := pre }).particles ++
          ((manageParticleLifecycle cfg)^[L] { s with particles := post }).particles) ∧
    (p.lifespan = none →
      ∀ k : ℕ,
        ∃ q : Particle K,
          ((manageParticleLifecycle cfg)^[k] s).particles =
            ((manageParticleLifecycle cfg)^[k] { s with particles := pre }).particles ++
              q :: ((manageParticleLifecycle cfg)^[k] { s with particles := post }).particles ∧
          q.lifespan = none ∧
          { q with collisionTimer := p.collisionTimer } = p) := by
  constructor
  · intro L hL hp
    constructor
    · intro k hk
      obtain ⟨q, hq, hql, hsame⟩ :=
        lifecycle_iterate_alive cfg p (L : ℤ) hp k (by exact_mod_cast hk)
      refine ⟨q, ?_, hql, hsame⟩
      rw [manageParticleLifecycle_iterate_split cfg k s pre post p hs, hq]
      rfl
    · rw [manageParticleLifecycle_iterate_split cfg L s pre post p hs,
        lifecycle_iterate_expired cfg p L hp hL]
      rfl
  · intro hp k
    obtain ⟨q, hq, hql, hsame⟩ := lifecycle_iterate_permanent cfg p hp k
    refine ⟨q, ?_, hql, hsame⟩
    rw [manageParticleLifecycle_iterate_split cfg k s pre post p hs, hq]
    rfl

theorem lifecycle_countdown_witness :
    ((∀ k : ℕ, k < 300 →
        ∃ q : Particle ℚ,
          ((manageParticleLifecycle NETWORK_SETTINGS)^[k]
              { emptySystem with particles := [restingParticle, clickParticle] }).particles =
            ((manageParticleLifecycle NETWORK_SETTINGS)^[k]
              { emptySystem with particles := [restingParticle] }).particles ++
              q :: ((manageParticleLifecycle NETWORK_SETTINGS)^[k]
                { emptySystem with particles := [] }).particles ∧
          q.lifespan = some (((300 : ℕ) : ℤ) - k) ∧
          { q with lifespan := clickParticle.lifespan, currentColor := clickParticle.currentColor,
                   collisionTimer := clickParticle.collisionTimer } = clickParticle) ∧
      ((manageParticleLifecycle NETWORK_SETTINGS)^[300]
          { emptySystem with particles := [restingParticle, clickParticle] }).particles =
        ((manageParticleLifecycle NETWORK_SETTINGS)^[300]
          { emptySystem with particles := [restingParticle] }).particles ++
          ((manageParticleLifecycle NETWORK_SETTINGS)^[300]
            { emptySystem with particles := [] }).particles) ∧
    (∀ k : ℕ,
      ∃ q : Particle ℚ,
        ((manageParticleLifecycle NETWORK_SETTINGS)^[k]
            { emptySystem with particles := [restingParticle, clickParticle] }).particles =
          ((manageParticleLifecycle NETWORK_SETTINGS)^[k]
            { emptySystem with particles := [] }).particles ++
            q :: ((manageParticleLifecycle NETWORK_SETTINGS)^[k]
              { emptySystem with particles := [clickParticle] }).particles ∧
        q.lifespan = none ∧
        { q with collisionTimer := restingParticle.collisionTimer } = restingParticle) :=
  ⟨(lifecycle_countdown NETWORK_SETTINGS
      { emptySystem with particles := [restingParticle, clickParticle] }
      [restingParticle] [] clickParticle rfl).1 300 (by decide) rfl,
   (lifecycle_countdown NETWORK_SETTINGS
      { emptySystem with particles := [restingParticle, clickParticle] }
      [] [clickParticle] restingParticle rfl).2 rfl⟩

theorem clickParticle_spawned :
    addParticle NETWORK_SETTINGS emptySystem sampleAddDraws 500 500 true =
      (some clickParticle, { emptySystem with particles := [clickParticle] }) := by
  norm_num [addParticle, emptySystem, sampleAddDraws, clickParticle, NETWORK_SETTINGS,
    Particle.new]

/-- One pass acts on each part of the collection separately. -/
theorem manageParticleLifecycle_split (cfg : Settings K) (s : ParticleConnectionSystem K)
    (pre post : List (Particle K)) (p : Particle K) (hs : s.particles = pre ++ p :: post) :
    (manageParticleLifecycle cfg s).particles =
      (manageParticleLifecycle cfg { s with particles := pre }).particles ++
        ((lifecycleTick cfg p).toList ++
          (manageParticleLifecycle cfg { s with particles := post }).particles) := by
  simp only [manageParticleLifecycle_eq, hs, List.filterMap_append]
  congr 1
  rw [← filterMap_singleton_toList, ← List.filterMap_append]
  rfl

theorem lifecycleTick_colour (cfg : Settings K) (q : Particle K) (l : ℤ)
    (hl : q.lifespan = some l) (ht : q.transitionToOriginalColor = true)
    (hlive : ¬ l - 1 ≤ 0) :
    ∃ r : Particle K,
      lifecycleTick cfg q = some r ∧
      r.lifespan = some (l - 1) ∧
      r.currentColor =
        lerp cfg.newParticleColor cfg.particleColor
          (1 - ((l - 1 : ℤ) : K) / (cfg.particleLifespan : K)) := by
  unfold lifecycleTick
  rw [hl]
  dsimp only
  rw [if_neg hlive, if_pos ht]
  exact ⟨_, rfl, rfl, rfl⟩

/-- C10: a transitioning particle whose remaining lifespan after the pass is
`r` with `0 < r < particleLifespan` gets the colour
`lerp(newParticleColor, particleColor, 1 - r / particleLifespan)`, which lies
strictly between the spawn colour 150 and the base colour 200, is 175 at
`r = 150`, and is strictly nearer the base colour than the colour computed
for any larger remaining lifespan. -/
theorem lifecycle_colour (s : ParticleConnectionSystem K) (pre post : List (Particle K))
    (p : Particle K) (r : ℤ) (hs : s.particles = pre ++ p :: post)
    (hp : p.lifespan = some (r + 1)) (ht : p.transitionToOriginalColor = true)
    (hr0 : 0 < r) (hr1 : r < (NETWORK_SETTINGS : Settings K).particleLifespan) :
    ∃ q : Particle K,
      (manageParticleLifecycle NETWORK_SETTINGS s).particles =
        (manageParticleLifecycle NETWORK_SETTINGS { s with particles := pre }).particles ++
          q :: (manageParticleLifecycle NETWORK_SETTINGS { s with particles := post }).particles ∧
      q.lifespan = some r ∧
      q.currentColor =
        lerp (NETWORK_SETTINGS : Settings K).newParticleColor
          (NETWORK_SETTINGS : Settings K).particleColor
          (1 - (r : K) / ((NETWORK_SETTINGS : Settings K).particleLifespan : K)) ∧
      (150 < q.currentColor ∧ q.currentColor < 200) ∧
      (r = 150 → q.currentColor = 175) ∧
      (∀ r2 : ℤ, r < r2 →
        lerp (NETWORK_SETTINGS : Settings K).newParticleColor
          (NETWORK_SETTINGS : Settings K).particleColor
          (1 - (r2 : K) / ((NETWORK_SETTINGS : Settings K).particleLifespan : K)) <
          q.currentColor) := by
  obtain ⟨q, hq, hql, hqc⟩ :=
    lifecycleTick_colour NETWORK_SETTINGS p (r + 1) hp ht (by omega)
  have hsimp : r + 1 - 1 = r := by ring
  rw [hsimp] at hql hqc
  have hr0q : (0 : K) < (r : K) := by exact_mod_cast hr0
  have hr1q : (r : K) < 300 := by
    have h : r < 300 := hr1
    exact_mod_cast h
  have hval : q.currentColor = 200 - (r : K) / 6 := by
    rw [hqc]
    simp only [lerp, NETWORK_SETTINGS]
    push_cast
    ring
  refine ⟨q, ?_, hql, hqc, ?_, ?_, ?_⟩
  · rw [manageParticleLifecycle_split NETWORK_SETTINGS s pre post p hs, hq]
    rfl
  · rw [hval]
    constructor <;> linarith
  · intro h150
    rw [hval, h150]
    norm_num
  · intro r2 hr2
    have hr2q : (r : K) < (r2 : K) := by exact_mod_cast hr2
    rw [hval]
    simp only [lerp, NETWORK_SETTINGS]
    push_cast
    linarith

theorem lifecycle_colour_witness :
    ∃ q : Particle ℚ,
      (manageParticleLifecycle NETWORK_SETTINGS
          { emptySystem with particles := [restingParticle, clickParticle] }).particles =
        (manageParticleLifecycle NETWORK_SETTINGS
          { emptySystem with particles := [restingParticle] }).particles ++
          q :: (manageParticleLifecycle NETWORK_SETTINGS
            { emptySystem with particles := [] }).particles ∧
      q.lifespan = some 299 ∧
      q.currentColor =
        lerp (NETWORK_SETTINGS : Settings ℚ).newParticleColor
          (NETWORK_SETTINGS : Settings ℚ).particleColor
          (1 - ((299 : ℤ) : ℚ) / ((NETWORK_SETTINGS : Settings ℚ).particleLifespan : ℚ)) ∧
      (150 < q.currentColor ∧ q.currentColor < 200) ∧
      ((299 : ℤ) = 150 → q.currentColor = 175) ∧
      (∀ r2 : ℤ, 299 < r2 →
        lerp (NETWORK_SETTINGS : Settings ℚ).newParticleColor
          (NETWORK_SETTINGS : Settings ℚ).particleColor
          (1 - (r2 : ℚ) / ((NETWORK_SETTINGS : Settings ℚ).particleLifespan : ℚ)) <
          q.currentColor) :=
  lifecycle_colour { emptySystem with particles := [restingParticle, clickParticle] }
    [restingParticle] [] clickParticle 299 rfl rfl rfl (by decide) (by decide)

/-! ## Collisions -/

theorem natSqrtUpTo_25 : natSqrtUpTo 25 25 = 5 := by decide

theorem natSqrtUpTo_1 : natSqrtUpTo 1 1 = 1 := by decide

theorem ratSqrt_25 : ratSqrt 25 = 5 := by
  have hn : (25 : ℚ).num = 25 := rfl
  have hd : (25 : ℚ).den = 1 := rfl
  unfold ratSqrt
  rw [hn, hd]
  simp [natSqrtUpTo_25, natSqrtUpTo_1]

theorem ratSqrt_0 : ratSqrt 0 = 0 := by
  simp [ratSqrt, natSqrtUpTo]

theorem isSqrt_ratSqrt_25 : IsSqrt ratSqrt 25 := by
  unfold IsSqrt
  rw [ratSqrt_25]
  norm_num

/-- On a collection of two particles `handleParticleCollisions` runs the loop
body once, on the pair `(0, 1)`. -/
theorem handleParticleCollisions_two (cfg : Settings K) (sqrt : K → K)
    (s : ParticleConnectionSystem K) (a b : Particle K)
    (hs : s.particles = [a, b]) (hen : cfg.collisionEnabled = true) :
    handleParticleCollisions cfg sqrt s =
      (handleParticleCollisions.pair cfg sqrt a b).map
        fun r => { s with particles := [r.1, r.2] } := by
  unfold handleParticleCollisions
  rw [hs, hen]
  cases hpair : handleParticleCollisions.pair cfg sqrt a b with
  | none =>
    simp [List.range_succ, handleParticleCollisions.inner, handleParticleCollisions.step,
      List.range', hpair]
  | some r =>
    simp [List.range_succ, handleParticleCollisions.inner, handleParticleCollisions.step,
      List.range', hpair]

/-- The outcome of the loop body on a pair that it resolves. -/
theorem pair_resolved (cfg : Settings K) (sqrt : K → K) (a b : Particle K)
    (hpos : separation sqrt a b ≠ 0)
    (hnear : separation sqrt a b < cfg.collisionDistance)
    (happroach : alongNormal sqrt a b (b.velocityX - a.velocityX)
      (b.velocityY - a.velocityY) ≤ 0) :
    handleParticleCollisions.pair cfg sqrt a b =
      some
        ({ a with
             velocityX := a.velocityX -
               -(1 + cfg.collisionElasticity) *
                 alongNormal sqrt a b (b.velocityX - a.velocityX)
                   (b.velocityY - a.velocityY) / 2 * normalX sqrt a b,
             velocityY := a.velocityY -
               -(1 + cfg.collisionElasticity) *
                 alongNormal sqrt a b (b.velocityX - a.velocityX)
                   (b.velocityY - a.velocityY) / 2 * normalY sqrt a b,
             positionX := a.positionX -
               normalX sqrt a b * (cfg.collisionDistance - separation sqrt a b) * (1 / 2),
             positionY := a.positionY -
               normalY sqrt a b * (cfg.collisionDistance - separation sqrt a b) * (1 / 2),
             collisionTimer := cfg.collisionHighlightDuration },
         { b with
             velocityX := b.velocityX +
               -(1 + cfg.collisionElasticity) *
                 alongNormal sqrt a b (b.velocityX - a.velocityX)
                   (b.velocityY - a.velocityY) / 2 * normalX sqrt a b,
             velocityY := b.velocityY +
               -(1 + cfg.collisionElasticity) *
                 alongNormal sqrt a b (b.velocityX - a.velocityX)
                   (b.velocityY - a.velocityY) / 2 * normalY sqrt a b,
             positionX := b.positionX +
               normalX sqrt a b * (cfg.collisionDistance - separation sqrt a b) * (1 / 2),
             positionY := b.positionY +
               normalY sqrt a b * (cfg.collisionDistance - separation sqrt a b) * (1 / 2),
             collisionTimer := cfg.collisionHighlightDuration }) := by
  unfold alongNormal normalX normalY separation at *
  unfold handleParticleCollisions.pair
  dsimp only
  rw [if_pos hnear, if_neg hpos, if_neg (not_lt.mpr happroach)]

/-- The collision normal of a pair at non-zero distance is a unit vector. -/
theorem normal_unit (sqrt : K → K) (a b : Particle K)
    (hsqrt : IsSqrt sqrt
      ((b.positionX - a.positionX) * (b.positionX - a.positionX) +
        (b.positionY - a.positionY) * (b.positionY - a.positionY)))
    (hpos : separation sqrt a b ≠ 0) :
    normalX sqrt a b * normalX sqrt a b + normalY sqrt a b * normalY sqrt a b = 1 := by
  unfold normalX normalY
  have hsq : separation sqrt a b * separation sqrt a b =
      (b.positionX - a.positionX) * (b.positionX - a.positionX) +
        (b.positionY - a.positionY) * (b.positionY - a.positionY) := hsqrt.2
  field_simp
  linarith

/-- C3: for a pair that the loop body resolves (non-zero distance below
`collisionDistance`, relative velocity along the normal not positive), with
any elasticity `e`: the relative velocity along the collision normal after
the resolution is `-e` times its value before, and the tangential velocity
component of each particle is unchanged.  With `e = 1` the sum of the squared
normal velocity components of the two particles is unchanged, and with
`e = 0` the relative velocity along the normal becomes `0`. -/
theorem collision_restitution (cfg : Settings K) (sqrt : K → K) (a b : Particle K)
    (hsqrt : IsSqrt sqrt
      ((b.positionX - a.positionX) * (b.positionX - a.positionX) +
        (b.positionY - a.positionY) * (b.positionY - a.positionY)))
    (hpos : 0 < separation sqrt a b)
    (hnear : separation sqrt a b < cfg.collisionDistance)
    (happroach : alongNormal sqrt a b (b.velocityX - a.velocityX)
      (b.velocityY - a.velocityY) ≤ 0) :
    ∃ a2 b2 : Particle K,
      handleParticleCollisions.pair cfg sqrt a b = some (a2, b2) ∧
      alongNormal sqrt a b (b2.velocityX - a2.velocityX) (b2.velocityY - a2.velocityY) =
        -cfg.collisionElasticity *
          alongNormal sqrt a b (b.velocityX - a.velocityX) (b.velocityY - a.velocityY) ∧
      alongTangent sqrt a b a2.velocityX a2.velocityY =
        alongTangent sqrt a b a.velocityX a.velocityY ∧
      alongTangent sqrt a b b2.velocityX b2.velocityY =
        alongTangent sqrt a b b.velocityX b.velocityY ∧
      (cfg.collisionElasticity = 1 →
        alongNormal sqrt a b a2.velocityX a2.velocityY ^ 2 +
            alongNormal sqrt a b b2.velocityX b2.velocityY ^ 2 =
          alongNormal sqrt a b a.velocityX a.velocityY ^ 2 +
            alongNormal sqrt a b b.velocityX b.velocityY ^ 2) ∧
      (cfg.collisionElasticity = 0 →
        alongNormal sqrt a b (b2.velocityX - a2.velocityX)
          (b2.velocityY - a2.velocityY) = 0) := by
  have hunit := normal_unit sqrt a b hsqrt hpos.ne'
  have hrel :
      alongNormal sqrt a b
          (b.velocityX +
              -(1 + cfg.collisionElasticity) *
                alongNormal sqrt a b (b.velocityX - a.velocityX)
                  (b.velocityY - a.velocityY) / 2 * normalX sqrt a b -
            (a.velocityX -
              -(1 + cfg.collisionElasticity) *
                alongNormal sqrt a b (b.velocityX - a.velocityX)
                  (b.velocityY - a.velocityY) / 2 * normalX sqrt a b))
          (b.velocityY +
              -(1 + cfg.collisionElasticity) *
                alongNormal sqrt a b (b.velocityX - a.velocityX)
                  (b.velocityY - a.velocityY) / 2 * normalY sqrt a b -
            (a.velocityY -
              -(1 + cfg.collisionElasticity) *
                alongNormal sqrt a b (b.velocityX - a.velocityX)
                  (b.velocityY - a.velocityY) / 2 * normalY sqrt a b)) =
        -cfg.collisionElasticity *
          alongNormal sqrt a b (b.velocityX - a.velocityX) (b.velocityY - a.velocityY) := by
    unfold alongNormal
    generalize normalX sqrt a b = nx at hunit ⊢
    generalize normalY sqrt a b = ny at hunit ⊢
    linear_combination
      (-(1 + cfg.collisionElasticity) *
        ((b.velocityX - a.velocityX) * nx + (b.velocityY - a.velocityY) * ny)) * hunit
  refine ⟨_, _, pair_resolved cfg sqrt a b hpos.ne' hnear happroach, hrel, ?_, ?_, ?_, ?_⟩
  · dsimp only
    unfold alongTangent
    ring
  · dsimp only
    unfold alongTangent
    ring
  · intro he
    dsimp only
    rw [he]
    unfold alongNormal
    generalize normalX sqrt a b = nx at hunit ⊢
    generalize normalY sqrt a b = ny at hunit ⊢
    have ha :
        (a.velocityX -
            -(1 + 1) * ((b.velocityX - a.velocityX) * nx + (b.velocityY - a.velocityY) * ny) /
              2 * nx) * nx +
          (a.velocityY -
            -(1 + 1) * ((b.velocityX - a.velocityX) * nx + (b.velocityY - a.velocityY) * ny) /
              2 * ny) * ny =
        b.velocityX * nx + b.velocityY * ny := by
      linear_combination
        ((b.velocityX - a.velocityX) * nx + (b.velocityY - a.velocityY) * ny) * hunit
    have hb :
        (b.velocityX +
            -(1 + 1) * ((b.velocityX - a.velocityX) * nx + (b.velocityY - a.velocityY) * ny) /
              2 * nx) * nx +
          (b.velocityY +
            -(1 + 1) * ((b.velocityX - a.velocityX) * nx + (b.velocityY - a.velocityY) * ny) /
              2 * ny) * ny =
        a.velocityX * nx + a.velocityY * ny := by
      linear_combination
        (-((b.velocityX - a.velocityX) * nx + (b.velocityY - a.velocityY) * ny)) * hunit
    rw [ha, hb]
    ring
  · intro he
    rw [hrel, he]
    ring

/-- Over the reals the hypothesis `IsSqrt` holds for `Real.sqrt` at every
non-negative argument. -/
theorem isSqrt_real_sqrt (x : ℝ) (hx : 0 ≤ x) : IsSqrt Real.sqrt x :=
  ⟨Real.sqrt_nonneg x, Real.mul_self_sqrt hx⟩

theorem sqrt_eq_of_isSqrt (sqrt : K → K) (x r : K) (h : IsSqrt sqrt x) (hr : 0 ≤ r)
    (hx : x = r * r) : sqrt x = r := by
  obtain ⟨h0, hsq⟩ := h
  rw [hx] at hsq
  rcases mul_self_eq_mul_self_iff.mp hsq with heq | heq
  · rw [← hx] at heq
    exact heq
  · rw [← hx] at heq
    have hzero : r = 0 := by linarith
    rw [heq, hzero]
    norm_num

theorem headOn_separation (sqrt : K → K) (h5 : sqrt 25 = 5) :
    separation sqrt headOnA headOnB = 5 := by
  unfold separation
  norm_num [headOnA, headOnB, Particle.new]
  exact h5

theorem headOn_normalX (sqrt : K → K) (h5 : sqrt 25 = 5) :
    normalX sqrt headOnA headOnB = 1 := by
  unfold normalX
  rw [headOn_separation sqrt h5]
  norm_num [headOnA, headOnB, Particle.new]

theorem headOn_normalY (sqrt : K → K) (h5 : sqrt 25 = 5) :
    normalY sqrt headOnA headOnB = 0 := by
  unfold normalY
  rw [headOn_separation sqrt h5]
  norm_num [headOnA, headOnB, Particle.new]

theorem headOn_alongNormal (sqrt : K → K) (h5 : sqrt 25 = 5) :
    alongNormal sqrt headOnA headOnB (headOnB.velocityX - headOnA.velocityX)
      (headOnB.velocityY - headOnA.velocityY) = -10 := by
  unfold alongNormal
  rw [headOn_normalX sqrt h5, headOn_normalY sqrt h5]
  norm_num [headOnA, headOnB, Particle.new]

/-- The head-on scenario evaluated: the velocities become `(-4, 0)` and
`(4, 0)`, the positions `(-5/2, 0)` and `(15/2, 0)`, both timers 15. -/
theorem headOn_outcome (sqrt : K → K) (h5 : sqrt 25 = 5) :
    handleParticleCollisions NETWORK_SETTINGS sqrt headOnSystem =
      some { headOnSystem with
               particles :=
                 [{ headOnA with velocityX := -4, positionX := -5 / 2, collisionTimer := 15 },
                  { headOnB with velocityX := 4, positionX := 15 / 2, collisionTimer := 15 }] } := by
  rw [handleParticleCollisions_two NETWORK_SETTINGS sqrt headOnSystem headOnA headOnB rfl rfl,
    pair_resolved NETWORK_SETTINGS sqrt headOnA headOnB
      (by rw [headOn_separation sqrt h5]; norm_num)
      (by rw [headOn_separation sqrt h5]; norm_num [NETWORK_SETTINGS])
      (by rw [headOn_alongNormal sqrt h5]; norm_num)]
  rw [headOn_alongNormal sqrt h5, headOn_normalX sqrt h5, headOn_normalY sqrt h5,
    headOn_separation sqrt h5]
  norm_num [NETWORK_SETTINGS, headOnA, headOnB, Particle.new]

/-- C4 fails as stated: in the head-on scenario particle A leaves with
velocity `(-4, 0)` and particle B with `(4, 0)`, not `(-4.5, 0)` and
`(4.5, 0)`. -/
theorem headOn_velocities_not_scaled_by_09 :
    ∃ a2 b2 : Particle ℚ,
      handleParticleCollisions NETWORK_SETTINGS ratSqrt headOnSystem =
        some { headOnSystem with particles := [a2, b2] } ∧
      a2.velocityX = -4 ∧ b2.velocityX = 4 ∧
      a2.velocityX ≠ -(9 / 2) ∧ b2.velocityX ≠ 9 / 2 := by
  refine ⟨_, _, headOn_outcome ratSqrt ratSqrt_25, rfl, rfl, ?_, ?_⟩
  · norm_num
  · norm_num

/-- C4 (amended): in the head-on scenario (A at `(0,0)` with velocity `(5,0)`,
B at `(5,0)` with velocity `(-5,0)`, `collisionDistance` 10, elasticity 0.8)
`handleParticleCollisions` changes each velocity by an impulse of magnitude 9
along the x axis, and each particle's velocity inverts direction scaled by
0.8: A's velocity becomes `(-4, 0)` and B's becomes `(4, 0)`. -/
theorem headOn_scenario (sqrt : K → K) (hsqrt : IsSqrt sqrt 25) :
    ∃ a2 b2 : Particle K,
      handleParticleCollisions NETWORK_SETTINGS sqrt headOnSystem =
        some { headOnSystem with particles := [a2, b2] } ∧
      headOnA.velocityX - a2.velocityX = 9 ∧ headOnA.velocityY - a2.velocityY = 0 ∧
      b2.velocityX - headOnB.velocityX = 9 ∧ b2.velocityY - headOnB.velocityY = 0 ∧
      a2.velocityX = -4 ∧ a2.velocityY = 0 ∧
      b2.velocityX = 4 ∧ b2.velocityY = 0 ∧
      a2.velocityX = -(4 / 5) * headOnA.velocityX ∧
      b2.velocityX = -(4 / 5) * headOnB.velocityX := by
  have h5 : sqrt 25 = 5 := sqrt_eq_of_isSqrt sqrt 25 5 hsqrt (by norm_num) (by norm_num)
  refine ⟨_, _, headOn_outcome sqrt h5, ?_, ?_, ?_, ?_, rfl, ?_, rfl, ?_, ?_, ?_⟩ <;>
    norm_num [headOnA, headOnB, Particle.new]

theorem headOn_scenario_witness :
    IsSqrt ratSqrt 25 ∧
    ∃ a2 b2 : Particle ℚ,
      handleParticleCollisions NETWORK_SETTINGS ratSqrt headOnSystem =
        some { headOnSystem with particles := [a2, b2] } ∧
      a2.velocityX = -4 ∧ b2.velocityX = 4 := by
  refine ⟨isSqrt_ratSqrt_25, ?_⟩
  obtain ⟨a2, b2, hrun, -, -, -, -, ha, -, hb, -⟩ := headOn_scenario ratSqrt isSqrt_ratSqrt_25
  exact ⟨a2, b2, hrun, ha, hb⟩

theorem headOn_sqDist :
    ((headOnB : Particle K).positionX - (headOnA : Particle K).positionX) *
        ((headOnB : Particle K).positionX - (headOnA : Particle K).positionX) +
      ((headOnB : Particle K).positionY - (headOnA : Particle K).positionY) *
        ((headOnB : Particle K).positionY - (headOnA : Particle K).positionY) =
      25 := by
  norm_num [headOnA, headOnB, Particle.new]

theorem collision_restitution_witness :
    (0 < separation ratSqrt headOnA headOnB ∧
      separation ratSqrt headOnA headOnB < (NETWORK_SETTINGS : Settings ℚ).collisionDistance ∧
      alongNormal ratSqrt headOnA headOnB (headOnB.velocityX - headOnA.velocityX)
        (headOnB.velocityY - headOnA.velocityY) ≤ 0) ∧
    ∃ a2 b2 : Particle ℚ,
      handleParticleCollisions.pair NETWORK_SETTINGS ratSqrt headOnA headOnB = some (a2, b2) ∧
      alongNormal ratSqrt headOnA headOnB (b2.velocityX - a2.velocityX)
          (b2.velocityY - a2.velocityY) =
        -(NETWORK_SETTINGS : Settings ℚ).collisionElasticity *
          alongNormal ratSqrt headOnA headOnB (headOnB.velocityX - headOnA.velocityX)
            (headOnB.velocityY - headOnA.velocityY) := by
  have hpos : 0 < separation ratSqrt headOnA headOnB := by
    rw [headOn_separation ratSqrt ratSqrt_25]
    norm_num
  have hnear :
      separation ratSqrt headOnA headOnB < (NETWORK_SETTINGS : Settings ℚ).collisionDistance := by
    rw [headOn_separation ratSqrt ratSqrt_25]
    norm_num [NETWORK_SETTINGS]
  have happroach :
      alongNormal ratSqrt headOnA headOnB (headOnB.velocityX - headOnA.velocityX)
        (headOnB.velocityY - headOnA.velocityY) ≤ 0 := by
    rw [headOn_alongNormal ratSqrt ratSqrt_25]
    norm_num
  refine ⟨⟨hpos, hnear, happroach⟩, ?_⟩
  obtain ⟨a2, b2, hrun, hrel, -⟩ :=
    collision_restitution NETWORK_SETTINGS ratSqrt headOnA headOnB
      (by rw [headOn_sqDist]; exact isSqrt_ratSqrt_25) hpos hnear happroach
  exact ⟨a2, b2, hrun, hrel⟩

theorem pair_zero_distance (cfg : Settings K) (sqrt : K → K) (a b : Particle K)
    (hcd : 0 < cfg.collisionDistance) (hzero : separation sqrt a b = 0) :
    handleParticleCollisions.pair cfg sqrt a b = none := by
  unfold separation at hzero
  unfold handleParticleCollisions.pair
  dsimp only
  rw [hzero, if_pos hcd, if_pos rfl]

/-- C6: two particles at exactly the same position are not skipped.  With
`distance = 0 < collisionDistance` the code goes on to evaluate
`dx / distance`, a division by zero (the outcome `none`), so the collection
is not left unchanged. -/
theorem collision_at_zero_distance_divides (cfg : Settings K) (sqrt : K → K)
    (s : ParticleConnectionSystem K) (a b : Particle K)
    (hs : s.particles = [a, b]) (hen : cfg.collisionEnabled = true)
    (hcd : 0 < cfg.collisionDistance) (hsqrt : IsSqrt sqrt 0)
    (hx : b.positionX = a.positionX) (hy : b.positionY = a.positionY) :
    handleParticleCollisions cfg sqrt s = none ∧
    handleParticleCollisions cfg sqrt s ≠ some s := by
  have hzero : separation sqrt a b = 0 := by
    unfold separation
    rw [hx, hy]
    simp only [sub_self, mul_zero, add_zero]
    exact sqrt_eq_of_isSqrt sqrt 0 0 hsqrt le_rfl (by norm_num)
  have hnone : handleParticleCollisions cfg sqrt s = none := by
    rw [handleParticleCollisions_two cfg sqrt s a b hs hen,
      pair_zero_distance cfg sqrt a b hcd hzero]
    rfl
  refine ⟨hnone, ?_⟩
  rw [hnone]
  simp

theorem collision_at_zero_distance_divides_witness :
    handleParticleCollisions NETWORK_SETTINGS ratSqrt
        { emptySystem with particles := [restingParticle, restingParticle] } = none ∧
    handleParticleCollisions NETWORK_SETTINGS ratSqrt
        { emptySystem with particles := [restingParticle, restingParticle] } ≠
      some { emptySystem with particles := [restingParticle, restingParticle] } :=
  collision_at_zero_distance_divides NETWORK_SETTINGS ratSqrt
    { emptySystem with particles := [restingParticle, restingParticle] }
    restingParticle restingParticle rfl rfl (by norm_num [NETWORK_SETTINGS])
    (by unfold IsSqrt; rw [ratSqrt_0]; norm_num) rfl rfl

/-! ## Rendering -/

/-- C17: the fill colour of `Particle.render` follows a strict precedence:
the collision highlight colour if `collisionTimer > 0`; otherwise the
interpolated `currentColor` if `transitionToOriginalColor` is set; otherwise
the cursor highlight colour if `isAffectedByCursor`; otherwise
`originalColor`.  The four conditions exclude each other and cover every
state, so exactly one applies. -/
theorem render_colour_precedence (cfg : Settings K) (p : Particle K) :
    (p.collisionTimer > 0 → (p.render cfg).fill = cfg.collisionHighlightColor) ∧
    (¬ p.collisionTimer > 0 → p.transitionToOriginalColor = true →
      (p.render cfg).fill = p.currentColor) ∧
    (¬ p.collisionTimer > 0 → p.transitionToOriginalColor = false →
      p.isAffectedByCursor = true → (p.render cfg).fill = cfg.cursorHighlightColor) ∧
    (¬ p.collisionTimer > 0 → p.transitionToOriginalColor = false →
      p.isAffectedByCursor = false → (p.render cfg).fill = p.originalColor) := by
  unfold Particle.render Particle.render.displayColor
  refine ⟨?_, ?_, ?_, ?_⟩
  · intro h
    simp only [if_pos h]
  · intro h ht
    simp only [if_neg h, ht, if_true]
  · intro h ht ha
    simp [if_neg h, ht, ha]
  · intro h ht ha
    simp [if_neg h, ht, ha]

theorem render_colour_precedence_witness :
    (glowingTouchedParticle.render NETWORK_SETTINGS).fill =
      (NETWORK_SETTINGS : Settings ℚ).collisionHighlightColor :=
  (render_colour_precedence NETWORK_SETTINGS glowingTouchedParticle).1 (by decide)

/-- C18 fails as stated: a pointer-affected particle with `collisionTimer > 0`
is drawn with the collision colour but at 1.5 times its size (7.5), not 1.3
times (6.5). -/
theorem render_size_of_glowing_touched :
    glowingTouchedParticle.collisionTimer > 0 ∧
    (glowingTouchedParticle.render NETWORK_SETTINGS).fill =
      (NETWORK_SETTINGS : Settings ℚ).collisionHighlightColor ∧
    (glowingTouchedParticle.render NETWORK_SETTINGS).size =
      glowingTouchedParticle.particleSize * (3 / 2) ∧
    (glowingTouchedParticle.render NETWORK_SETTINGS).size ≠
      glowingTouchedParticle.particleSize * (13 / 10) := by
  refine ⟨by decide, ?_, ?_, ?_⟩
  · simp [Particle.render, Particle.render.displayColor, glowingTouchedParticle]
  · simp [Particle.render, Particle.render.size, glowingTouchedParticle]
  · norm_num [Particle.render, Particle.render.size, glowingTouchedParticle, restingParticle,
      Particle.new, NETWORK_SETTINGS]

/-- C18 (amended): the size drawn by `Particle.render` has its own branch
chain, which ignores `transitionToOriginalColor` and tests the pointer first:
1.5 times `particleSize` whenever `isAffectedByCursor` holds (also when
`collisionTimer > 0`); 1.3 times `particleSize` when `isAffectedByCursor` is
false and `collisionTimer > 0`; `particleSize` otherwise. -/
theorem render_size_branches (cfg : Settings K) (p : Particle K) :
    (p.isAffectedByCursor = true → (p.render cfg).size = p.particleSize * (3 / 2)) ∧
    (p.isAffectedByCursor = false → p.collisionTimer > 0 →
      (p.render cfg).size = p.particleSize * (13 / 10)) ∧
    (p.isAffectedByCursor = false → ¬ p.collisionTimer > 0 →
      (p.render cfg).size = p.particleSize) := by
  unfold Particle.render Particle.render.size
  refine ⟨?_, ?_, ?_⟩
  · intro ha
    simp [ha]
  · intro ha hc
    simp [ha, hc]
  · intro ha hc
    simp [ha, hc]

theorem render_size_branches_witness :
    (glowingTouchedParticle.render NETWORK_SETTINGS).size =
      glowingTouchedParticle.particleSize * (3 / 2) :=
  (render_size_branches NETWORK_SETTINGS glowingTouchedParticle).1 rfl

/-! ## Resize -/

theorem pair_far (cfg : Settings K) (sqrt : K → K) (a b : Particle K)
    (hfar : ¬ separation sqrt a b < cfg.collisionDistance) :
    handleParticleCollisions.pair cfg sqrt a b = some (a, b) := by
  unfold separation at hfar
  unfold handleParticleCollisions.pair
  dsimp only
  rw [if_neg hfar]

theorem pair_separating (cfg : Settings K) (sqrt : K → K) (a b : Particle K)
    (hpos : separation sqrt a b ≠ 0)
    (hnear : separation sqrt a b < cfg.collisionDistance)
    (hsep : 0 < alongNormal sqrt a b (b.velocityX - a.velocityX)
      (b.velocityY - a.velocityY)) :
    handleParticleCollisions.pair cfg sqrt a b = some (a, b) := by
  unfold alongNormal normalX normalY separation at *
  unfold handleParticleCollisions.pair
  dsimp only
  rw [if_pos hnear, if_neg hpos, if_pos hsep]

/-- C19: handling a pair at non-zero distance, whether the pair is skipped or
resolved and whatever the elasticity, leaves the sum of the two velocity
vectors and the sum of the two position vectors unchanged. -/
theorem collision_conserves_momentum_and_centre (cfg : Settings K) (sqrt : K → K)
    (a b : Particle K) (hpos : 0 < separation sqrt a b) :
    ∃ a2 b2 : Particle K,
      handleParticleCollisions.pair cfg sqrt a b = some (a2, b2) ∧
      a2.velocityX + b2.velocityX = a.velocityX + b.velocityX ∧
      a2.velocityY + b2.velocityY = a.velocityY + b.velocityY ∧
      a2.positionX + b2.positionX = a.positionX + b.positionX ∧
      a2.positionY + b2.positionY = a.positionY + b.positionY := by
  by_cases hnear : separation sqrt a b < cfg.collisionDistance
  · by_cases hsep : 0 < alongNormal sqrt a b (b.velocityX - a.velocityX)
      (b.velocityY - a.velocityY)
    · exact ⟨a, b, pair_separating cfg sqrt a b hpos.ne' hnear hsep, rfl, rfl, rfl, rfl⟩
    · refine ⟨_, _, pair_resolved cfg sqrt a b hpos.ne' hnear (not_lt.mp hsep), ?_, ?_, ?_, ?_⟩
      · dsimp only
        ring
      · dsimp only
        ring
      · dsimp only
        ring
      · dsimp only
        ring
  · exact ⟨a, b, pair_far cfg sqrt a b hnear, rfl, rfl, rfl, rfl⟩

theorem collision_conserves_momentum_and_centre_witness :
    0 < separation ratSqrt (headOnA : Particle ℚ) headOnB ∧
    ∃ a2 b2 : Particle ℚ,
      handleParticleCollisions.pair NETWORK_SETTINGS ratSqrt headOnA headOnB = some (a2, b2) ∧
      a2.velocityX + b2.velocityX =
        (headOnA : Particle ℚ).velocityX + (headOnB : Particle ℚ).velocityX := by
  have hpos : 0 < separation ratSqrt (headOnA : Particle ℚ) headOnB := by
    rw [headOn_separation ratSqrt ratSqrt_25]
    norm_num
  refine ⟨hpos, ?_⟩
  obtain ⟨a2, b2, hrun, hvx, -⟩ :=
    collision_conserves_momentum_and_centre NETWORK_SETTINGS ratSqrt headOnA headOnB hpos
  exact ⟨a2, b2, hrun, hvx⟩

theorem still_separation : separation ratSqrt stillA stillB = 5 := by
  unfold separation
  norm_num [stillA, stillB, Particle.new]
  exact ratSqrt_25

theorem still_normalX : normalX ratSqrt stillA stillB = 1 := by
  unfold normalX
  rw [still_separation]
  norm_num [stillA, stillB, Particle.new]

theorem still_normalY : normalY ratSqrt stillA stillB = 0 := by
  unfold normalY
  rw [still_separation]
  norm_num [stillA, stillB, Particle.new]

theorem still_alongNormal :
    alongNormal ratSqrt stillA stillB (stillB.velocityX - stillA.velocityX)
      (stillB.velocityY - stillA.velocityY) = 0 := by
  unfold alongNormal
  rw [still_normalX, still_normalY]
  norm_num [stillA, stillB, Particle.new]

/-- C13 fails as stated: two overlapping particles at rest (relative velocity
along the normal exactly 0, distance 5 below `collisionDistance`) are
resolved: the positions are pushed apart to `-5/2` and `15/2` and both
`collisionTimer` are set to 15. -/
theorem overlap_at_rest_is_resolved :
    separation ratSqrt stillA stillB < (NETWORK_SETTINGS : Settings ℚ).collisionDistance ∧
    0 ≤ alongNormal ratSqrt stillA stillB (stillB.velocityX - stillA.velocityX)
      (stillB.velocityY - stillA.velocityY) ∧
    handleParticleCollisions NETWORK_SETTINGS ratSqrt
        { emptySystem with particles := [stillA, stillB] } =
      some { emptySystem with
               particles :=
                 [{ stillA with positionX := -5 / 2, collisionTimer := 15 },
                  { stillB with positionX := 15 / 2, collisionTimer := 15 }] } ∧
    handleParticleCollisions NETWORK_SETTINGS ratSqrt
        { emptySystem with particles := [stillA, stillB] } ≠
      some { emptySystem with particles := [stillA, stillB] } := by
  have hnear :
      separation ratSqrt stillA stillB < (NETWORK_SETTINGS : Settings ℚ).collisionDistance := by
    rw [still_separation]
    norm_num [NETWORK_SETTINGS]
  have hrun :
      handleParticleCollisions NETWORK_SETTINGS ratSqrt
          { emptySystem with particles := [stillA, stillB] } =
        some { emptySystem with
                 particles :=
                   [{ stillA with positionX := -5 / 2, collisionTimer := 15 },
                    { stillB with positionX := 15 / 2, collisionTimer := 15 }] } := by
    rw [handleParticleCollisions_two NETWORK_SETTINGS ratSqrt _ stillA stillB rfl rfl,
      pair_resolved NETWORK_SETTINGS ratSqrt stillA stillB
        (by rw [still_separation]; norm_num) hnear (by rw [still_alongNormal])]
    rw [still_alongNormal, still_normalX, still_normalY, still_separation]
    norm_num [NETWORK_SETTINGS, stillA, stillB, Particle.new]
  refine ⟨hnear, by rw [still_alongNormal], hrun, ?_⟩
  rw [hrun]
  intro h
  have hpart := congrArg (fun o => o.map fun t => t.particles.map fun q => q.collisionTimer) h
  simp [stillA, stillB, Particle.new] at hpart

/-- C13 (amended): a pair at non-zero distance below `collisionDistance` whose
relative velocity projected on the collision normal is strictly positive is
not resolved: both particles keep their velocities, positions and
`collisionTimer`, and a collection made of just this pair is returned as it
was. -/
theorem collision_skipped_when_separating (cfg : Settings K) (sqrt : K → K)
    (a b : Particle K)
    (hpos : separation sqrt a b ≠ 0)
    (hnear : separation sqrt a b < cfg.collisionDistance)
    (hsep : 0 < alongNormal sqrt a b (b.velocityX - a.velocityX)
      (b.velocityY - a.velocityY)) :
    handleParticleCollisions.pair cfg sqrt a b = some (a, b) ∧
    ∀ s : ParticleConnectionSystem K, s.particles = [a, b] → cfg.collisionEnabled = true →
      handleParticleCollisions cfg sqrt s = some s := by
  refine ⟨pair_separating cfg sqrt a b hpos hnear hsep, ?_⟩
  intro s hs hen
  rw [handleParticleCollisions_two cfg sqrt s a b hs hen,
    pair_separating cfg sqrt a b hpos hnear hsep]
  cases s
  simp_all

theorem parting_separation : separation ratSqrt partingA partingB = 5 := by
  unfold separation
  norm_num [partingA, partingB, Particle.new]
  exact ratSqrt_25

theorem parting_alongNormal :
    alongNormal ratSqrt partingA partingB (partingB.velocityX - partingA.velocityX)
      (partingB.velocityY - partingA.velocityY) = 10 := by
  unfold alongNormal normalX normalY
  rw [parting_separation]
  norm_num [partingA, partingB, Particle.new]

theorem collision_skipped_when_separating_witness :
    (separation ratSqrt partingA partingB ≠ 0 ∧
      separation ratSqrt partingA partingB <
        (NETWORK_SETTINGS : Settings ℚ).collisionDistance ∧
      0 < alongNormal ratSqrt partingA partingB (partingB.velocityX - partingA.velocityX)
        (partingB.velocityY - partingA.velocityY)) ∧
    handleParticleCollisions.pair NETWORK_SETTINGS ratSqrt partingA partingB =
      some (partingA, partingB) := by
  have hpos : separation ratSqrt partingA partingB ≠ 0 := by
    rw [parting_separation]
    norm_num
  have hnear :
      separation ratSqrt partingA partingB <
        (NETWORK_SETTINGS : Settings ℚ).collisionDistance := by
    rw [parting_separation]
    norm_num [NETWORK_SETTINGS]
  have hsep :
      0 < alongNormal ratSqrt partingA partingB (partingB.velocityX - partingA.velocityX)
        (partingB.velocityY - partingA.velocityY) := by
    rw [parting_alongNormal]
    norm_num
  exact ⟨⟨hpos, hnear, hsep⟩,
    (collision_skipped_when_separating NETWORK_SETTINGS ratSqrt partingA partingB
      hpos hnear hsep).1⟩

/-! ## Lifecycle pass as a whole -/

theorem filterMap_eq_map_filter {α β : Type} (h : α → Option β) (f : α → Bool) (g : α → β)
    (hfg : ∀ x, h x = if f x = true then some (g x) else none) (l : List α) :
    l.filterMap h = (l.filter f).map g := by
  induction l with
  | nil => rfl
  | cons x xs ih =>
    rw [List.filterMap_cons, hfg x]
    by_cases hx : f x = true
    · simp [hx, ih]
    · simp [hx, ih]

/-- C14: one `manageParticleLifecycle` pass handles every particle exactly
once although it removes during the iteration: the collection afterwards
consists, in their original order, of exactly the particles whose lifespan was
undefined or greater than 1, each with a finite lifespan decreased by 1, a
positive `collisionTimer` decreased by 1 (a `collisionTimer` of 0 stays 0), the
colour of a transitioning particle with a lifespan re-interpolated, and
everything else as before; the rest of the system is unchanged. -/
theorem lifecycle_pass (cfg : Settings K) (s : ParticleConnectionSystem K) :
    manageParticleLifecycle cfg s =
      { s with
          particles :=
            (s.particles.filter fun p =>
                match p.lifespan with
                | none => true
                | some l => decide (1 < l)).map fun p =>
              { p with
                  lifespan := p.lifespan.map fun l => l - 1,
                  collisionTimer :=
                    if p.collisionTimer > 0 then p.collisionTimer - 1 else p.collisionTimer,
                  currentColor :=
                    match p.lifespan with
                    | none => p.currentColor
                    | some l =>
                      if p.transitionToOriginalColor then
                        lerp cfg.newParticleColor cfg.particleColor
                          (1 - ((l - 1 : ℤ) : K) / (cfg.particleLifespan : K))
                      else p.currentColor } } := by
  rw [manageParticleLifecycle_eq]
  congr 1
  apply filterMap_eq_map_filter
  intro p
  unfold lifecycleTick
  cases hl : p.lifespan with
  | none => simp
  | some l =>
    by_cases hdead : l - 1 ≤ 0
    · have h1 : ¬ 1 < l := by omega
      simp [hdead, h1]
    · have h1 : 1 < l := by omega
      simp [hdead, h1]

/-! ## Exactness of `ratSqrt` on squares of naturals -/

theorem natSqrtUpTo_sq (m : ℕ) : ∀ k : ℕ, m ≤ k → natSqrtUpTo (m * m) k = m := by
  intro k
  induction k with
  | zero =>
    intro h
    have hm : m = 0 := Nat.le_zero.mp h
    subst hm
    rfl
  | succ k ih =>
    intro h
    unfold natSqrtUpTo
    by_cases hle : (k + 1) * (k + 1) ≤ m * m
    · rw [if_pos hle]
      have hkm : k + 1 ≤ m := by
        by_contra hcon
        have hlt : m < k + 1 := Nat.lt_of_not_le hcon
        have := Nat.mul_self_lt_mul_self hlt
        omega
      omega
    · rw [if_neg hle]
      apply ih
      by_contra hcon
      have hmk : m = k + 1 := by omega
      rw [hmk] at hle
      exact hle le_rfl

theorem ratSqrt_sq (m : ℕ) : ratSqrt ((m : ℚ) * (m : ℚ)) = (m : ℚ) := by
  have hcast : (m : ℚ) * (m : ℚ) = ((m * m : ℕ) : ℚ) := by push_cast; ring
  unfold ratSqrt
  rw [hcast, Rat.num_natCast, Rat.den_natCast, Int.toNat_natCast,
    natSqrtUpTo_sq m (m * m) (Nat.le_mul_self m), natSqrtUpTo_1]
  simp

/-- C16: outside the influence radius, with `cursorInfluenceTimer = 1` and
`isAffectedByCursor` set, a particle that is transitioning or has
`collisionTimer > 0` gets its timer decremented to 0 but keeps
`isAffectedByCursor = true`: nothing but the timer changes, the flag no longer
implies a positive timer, and a further call changes nothing, so the flag
stays set. -/
theorem cursor_flag_survives_fade (cfg : Settings K) (sqrt : K → K) (atan2 : K → K → K)
    (cos sin : K → K) (p : Particle K) (cursorX cursorY influenceRadius repulsionStrength : K)
    (hout : ¬ dist sqrt p.positionX p.positionY cursorX cursorY < influenceRadius)
    (htimer : p.cursorInfluenceTimer = 1) (hflag : p.isAffectedByCursor = true)
    (hbusy : p.transitionToOriginalColor = true ∨ 0 < p.collisionTimer) :
    p.respondToCursor cfg sqrt atan2 cos sin cursorX cursorY influenceRadius repulsionStrength =
      { p with cursorInfluenceTimer := 0 } ∧
    (p.respondToCursor cfg sqrt atan2 cos sin cursorX cursorY influenceRadius
      repulsionStrength).isAffectedByCursor = true ∧
    (p.respondToCursor cfg sqrt atan2 cos sin cursorX cursorY influenceRadius
      repulsionStrength).cursorInfluenceTimer = 0 ∧
    ({ p with cursorInfluenceTimer := 0 } : Particle K).respondToCursor cfg sqrt atan2 cos sin
        cursorX cursorY influenceRadius repulsionStrength =
      { p with cursorInfluenceTimer := 0 } := by
  have hfirst :
      p.respondToCursor cfg sqrt atan2 cos sin cursorX cursorY influenceRadius
          repulsionStrength =
        { p with cursorInfluenceTimer := 0 } := by
    unfold Particle.respondToCursor
    dsimp only
    rw [if_neg hout, htimer]
    rcases hbusy with hb | hb
    · simp [hb]
    · have hnot : ¬ p.collisionTimer ≤ 0 := not_le.mpr hb
      simp [hnot]
  have hsecond :
      ({ p with cursorInfluenceTimer := 0 } : Particle K).respondToCursor cfg sqrt atan2 cos sin
          cursorX cursorY influenceRadius repulsionStrength =
        { p with cursorInfluenceTimer := 0 } := by
    unfold Particle.respondToCursor
    dsimp only
    rw [if_neg hout]
    simp
  refine ⟨hfirst, ?_, ?_, hsecond⟩
  · rw [hfirst]
    exact hflag
  · rw [hfirst]

theorem fading_dist :
    dist ratSqrt fadingGlowingParticle.positionX fadingGlowingParticle.positionY 1 101 =
      100 := by
  unfold dist
  have h := ratSqrt_sq 100
  norm_num [fadingGlowingParticle, glowingTouchedParticle, restingParticle, Particle.new] at h ⊢
  exact h

theorem cursor_flag_survives_fade_witness :
    (fadingGlowingParticle.respondToCursor NETWORK_SETTINGS ratSqrt atan2AtOrigin cosAtZero
      sinAtZero 1 101 100 2).isAffectedByCursor = true ∧
    (fadingGlowingParticle.respondToCursor NETWORK_SETTINGS ratSqrt atan2AtOrigin cosAtZero
      sinAtZero 1 101 100 2).cursorInfluenceTimer = 0 :=
  ⟨(cursor_flag_survives_fade NETWORK_SETTINGS ratSqrt atan2AtOrigin cosAtZero sinAtZero
      fadingGlowingParticle 1 101 100 2 (by rw [fading_dist]; norm_num) rfl rfl
      (Or.inr (by decide))).2.1,
    (cursor_flag_survives_fade NETWORK_SETTINGS ratSqrt atan2AtOrigin cosAtZero sinAtZero
      fadingGlowingParticle 1 101 100 2 (by rw [fading_dist]; norm_num) rfl rfl
      (Or.inr (by decide))).2.2.1⟩

/-! ## Initial population and the maximum -/

theorem createParticles_lifespan [FloorRing K] (cfg : Settings K)
    (s : ParticleConnectionSystem K) (draws : ℕ → CreateDraws K) :
    ∀ p ∈ (createParticles cfg s draws).particles, p.lifespan = none := by
  intro p hp
  unfold createParticles at hp
  simp only [List.mem_map] at hp
  obtain ⟨i, -, rfl⟩ := hp
  rfl

theorem lifecycleTick_permanent_list (cfg : Settings K) (l : List (Particle K))
    (hl : ∀ p ∈ l, p.lifespan = none) :
    (l.filterMap (lifecycleTick cfg)).length = l.length ∧
    ∀ p ∈ l.filterMap (lifecycleTick cfg), p.lifespan = none := by
  induction l with
  | nil => simp
  | cons a l ih =>
    obtain ⟨r, hr, hrl, -⟩ :=
      lifecycleTick_permanent cfg a (hl a (List.mem_cons_self a l))
    obtain ⟨hlen, hall⟩ := ih (fun p hp => hl p (List.mem_cons_of_mem a hp))
    rw [List.filterMap_cons, hr]
    constructor
    · simp [hlen]
    · intro p hp
      rcases List.mem_cons.mp hp with h | h
      · rw [h]
        exact hrl
      · exact hall p h

theorem lifecycle_iterate_permanent_list (cfg : Settings K) (k : ℕ)
    (s : ParticleConnectionSystem K) (hl : ∀ p ∈ s.particles, p.lifespan = none) :
    ((manageParticleLifecycle cfg)^[k] s).particles.length = s.particles.length ∧
    ∀ p ∈ ((manageParticleLifecycle cfg)^[k] s).particles, p.lifespan = none := by
  induction k with
  | zero => exact ⟨rfl, hl⟩
  | succ k ih =>
    obtain ⟨hlen, hall⟩ := ih
    rw [Function.iterate_succ_apply', manageParticleLifecycle_eq]
    obtain ⟨hlen2, hall2⟩ := lifecycleTick_permanent_list cfg _ hall
    exact ⟨hlen2.trans hlen, hall2⟩

theorem handleMouseClick_full (cfg : Settings K) (s : ParticleConnectionSystem K)
    (draws : ℕ → ClickDraws K) (x y : K) (hfull : cfg.maxParticles ≤ s.particles.length) :
    handleMouseClick cfg s draws x y = s := by
  obtain ⟨added, hrun, hlen, -⟩ := handleMouseClick_spec cfg s draws x y
  have hzero : added.length = 0 := by
    rw [hlen]
    omega
  have hnil : added = [] := List.length_eq_zero.mp hzero
  rw [hrun, hnil]
  cases s
  simp

/-- C20: `createParticles` does not establish `particles.length <= maxParticles`:
on a 2000 x 1500 canvas it creates `floor(100 * 3000000 / 1000000) = 300`
particles, above `maxParticles = 200`.  In every state whose count is above
the maximum `addParticle` returns `null` and `handleMouseClick` adds nothing,
both leaving the system as it is; and the particles that `createParticles`
makes have no lifespan, so no number of lifecycle passes removes any. -/
theorem createParticles_exceeds_maxParticles [FloorRing K] :
    (∀ draws : ℕ → CreateDraws K,
      (createParticles NETWORK_SETTINGS (wideSystem : ParticleConnectionSystem K)
        draws).particles.length = 300) ∧
    (NETWORK_SETTINGS : Settings K).maxParticles < 300 ∧
    (∀ (cfg : Settings K) (s : ParticleConnectionSystem K),
      cfg.maxParticles < s.particles.length →
        (∀ (d : AddDraws K) (x y : K) (isFromClick : Bool),
          addParticle cfg s d x y isFromClick = (none, s)) ∧
        (∀ (draws : ℕ → ClickDraws K) (x y : K), handleMouseClick cfg s draws x y = s)) ∧
    (∀ (cfg : Settings K) (s : ParticleConnectionSystem K) (draws : ℕ → CreateDraws K)
        (k : ℕ),
      ((manageParticleLifecycle cfg)^[k] (createParticles cfg s draws)).particles.length =
        (createParticles cfg s draws).particles.length) := by
  refine ⟨?_, by norm_num [NETWORK_SETTINGS], ?_, ?_⟩
  · intro draws
    unfold createParticles
    simp only [List.length_map, List.length_range]
    norm_num [NETWORK_SETTINGS, wideSystem]
    rfl
  · intro cfg s hfull
    constructor
    · intro d x y isFromClick
      exact addParticle_full cfg s d x y isFromClick (by omega)
    · intro draws x y
      exact handleMouseClick_full cfg s draws x y (le_of_lt hfull)
  · intro cfg s draws k
    exact (lifecycle_iterate_permanent_list cfg k _
      (createParticles_lifespan cfg s draws)).1

theorem createParticles_exceeds_maxParticles_witness :
    (createParticles NETWORK_SETTINGS wideSystem diagonalDraws).particles.length = 300 ∧
    handleMouseClick NETWORK_SETTINGS (createParticles NETWORK_SETTINGS wideSystem diagonalDraws)
        leftwardDraws 500 500 =
      createParticles NETWORK_SETTINGS wideSystem diagonalDraws := by
  have hlen := (@createParticles_exceeds_maxParticles ℚ _ _).1 diagonalDraws
  refine ⟨hlen, ?_⟩
  exact ((@createParticles_exceeds_maxParticles ℚ _ _).2.2.1 NETWORK_SETTINGS
    (createParticles NETWORK_SETTINGS wideSystem diagonalDraws)
    (by rw [hlen]; decide)).2 leftwardDraws 500 500

/-! ## Connections -/

/-- The lines drawn by `createParticleConnections` are the lines of the pairs
`i < j` whose distance is below the scaled threshold. -/
theorem mem_createParticleConnections (cfg : Settings K) (sqrt : K → K)
    (s : ParticleConnectionSystem K) (c : ConnectionLine K) :
    c ∈ createParticleConnections cfg sqrt s ↔
      ∃ (i j : ℕ) (a b : Particle K),
        i < j ∧ s.particles[i]? = some a ∧ s.particles[j]? = some b ∧
        dist sqrt a.positionX a.positionY b.positionX b.positionY < scaledThreshold cfg s ∧
        c = connectionBetween cfg sqrt s a b := by
  unfold createParticleConnections connectionBetween scaledThreshold
  simp only [List.mem_flatMap, List.mem_range, List.mem_range'_1]
  constructor
  · rintro ⟨i, hi, j, ⟨hij, hj⟩, hc⟩
    cases ha : s.particles[i]? with
    | none => simp [ha] at hc
    | some a =>
      cases hb : s.particles[j]? with
      | none => simp [ha, hb] at hc
      | some b =>
        simp only [ha, hb] at hc
        split_ifs at hc with hnear
        · rw [List.mem_singleton] at hc
          exact ⟨i, j, a, b, by omega, ha, hb, hnear, hc⟩
        · simp at hc
  · rintro ⟨i, j, a, b, hij, ha, hb, hnear, hc⟩
    have hj : j < s.particles.length := by
      obtain ⟨h, -⟩ := List.getElem?_eq_some.mp hb
      exact h
    refine ⟨i, by omega, j, ⟨by omega, by omega⟩, ?_⟩
    simp only [ha, hb]
    rw [if_pos hnear, List.mem_singleton]
    exact hc

theorem map_opacity_eq (T d : K) (hT : 0 < T) :
    map d 0 T 180 50 = 180 - 130 * (d / T) := by
  unfold map
  have hne : T ≠ 0 := hT.ne'
  field_simp
  ring

/-- C11: on a canvas with `min(width, height) > 0` (and a positive
`connectionThreshold`), with `T` the scaled threshold:
`createParticleConnections` draws the line of a pair exactly when the distance
of the pair is below `T`, and draws nothing else; the opacity it uses is the
linear function `180 - 130 * d / T` of the distance `d`, which is
non-increasing, equals 180 at `d = 0`, stays above 50 below `T` and comes
arbitrarily close to 50 as `d` approaches `T`. -/
theorem connections_below_threshold (cfg : Settings K) (sqrt : K → K)
    (s : ParticleConnectionSystem K)
    (hcanvas : 0 < min s.canvasWidth s.canvasHeight) (hthr : 0 < cfg.connectionThreshold) :
    (∀ (i j : ℕ) (a b : Particle K),
      i < j → s.particles[i]? = some a → s.particles[j]? = some b →
        (connectionBetween cfg sqrt s a b ∈ createParticleConnections cfg sqrt s ↔
          dist sqrt a.positionX a.positionY b.positionX b.positionY <
            scaledThreshold cfg s)) ∧
    (∀ c ∈ createParticleConnections cfg sqrt s,
      ∃ (i j : ℕ) (a b : Particle K),
        i < j ∧ s.particles[i]? = some a ∧ s.particles[j]? = some b ∧
        dist sqrt a.positionX a.positionY b.positionX b.positionY < scaledThreshold cfg s ∧
        c = connectionBetween cfg sqrt s a b) ∧
    (∀ d : K, map d 0 (scaledThreshold cfg s) 180 50 = 180 - 130 * (d / scaledThreshold cfg s)) ∧
    (∀ d1 d2 : K, d1 ≤ d2 →
      map d2 0 (scaledThreshold cfg s) 180 50 ≤ map d1 0 (scaledThreshold cfg s) 180 50) ∧
    map 0 0 (scaledThreshold cfg s) 180 50 = 180 ∧
    (∀ d : K, d < scaledThreshold cfg s → 50 < map d 0 (scaledThreshold cfg s) 180 50) ∧
    (∀ ε : K, 0 < ε →
      ∃ δ : K, 0 < δ ∧
        ∀ d : K, scaledThreshold cfg s - δ < d → d < scaledThreshold cfg s →
          map d 0 (scaledThreshold cfg s) 180 50 < 50 + ε) := by
  have hT : 0 < scaledThreshold cfg s := by
    unfold scaledThreshold
    exact div_pos (mul_pos hthr hcanvas) (by norm_num)
  refine ⟨?_, ?_, ?_, ?_, ?_, ?_, ?_⟩
  · intro i j a b hij ha hb
    constructor
    · intro hmem
      obtain ⟨i2, j2, a2, b2, -, -, -, hnear, heq⟩ :=
        (mem_createParticleConnections cfg sqrt s _).mp hmem
      have hx1 : a.positionX = a2.positionX := congrArg ConnectionLine.x1 heq
      have hy1 : a.positionY = a2.positionY := congrArg ConnectionLine.y1 heq
      have hx2 : b.positionX = b2.positionX := congrArg ConnectionLine.x2 heq
      have hy2 : b.positionY = b2.positionY := congrArg ConnectionLine.y2 heq
      rw [hx1, hy1, hx2, hy2]
      exact hnear
    · intro hnear
      exact (mem_createParticleConnections cfg sqrt s _).mpr
        ⟨i, j, a, b, hij, ha, hb, hnear, rfl⟩
  · intro c hc
    exact (mem_createParticleConnections cfg sqrt s c).mp hc
  · intro d
    exact map_opacity_eq _ d hT
  · intro d1 d2 hd
    rw [map_opacity_eq _ d1 hT, map_opacity_eq _ d2 hT]
    have hdiv : d1 / scaledThreshold cfg s ≤ d2 / scaledThreshold cfg s :=
      div_le_div_of_nonneg_right hd hT.le
    linarith
  · rw [map_opacity_eq _ 0 hT]
    simp
  · intro d hd
    rw [map_opacity_eq _ d hT]
    have hdiv : d / scaledThreshold cfg s < 1 := (div_lt_one hT).mpr hd
    linarith
  · intro ε hε
    refine ⟨ε * scaledThreshold cfg s / 130, by positivity, ?_⟩
    intro d hlow _
    rw [map_opacity_eq _ d hT]
    have hdiv : 1 - ε / 130 < d / scaledThreshold cfg s := by
      rw [lt_div_iff₀ hT]
      have hexp : (1 - ε / 130) * scaledThreshold cfg s =
          scaledThreshold cfg s - ε * scaledThreshold cfg s / 130 := by ring
      rw [hexp]
      exact hlow
    linarith

theorem headOn_dist :
    dist ratSqrt (headOnA : Particle ℚ).positionX (headOnA : Particle ℚ).positionY
      (headOnB : Particle ℚ).positionX (headOnB : Particle ℚ).positionY = 5 :=
  headOn_separation ratSqrt ratSqrt_25

theorem headOn_scaledThreshold :
    scaledThreshold NETWORK_SETTINGS (headOnSystem : ParticleConnectionSystem ℚ) = 200 := by
  norm_num [scaledThreshold, NETWORK_SETTINGS, headOnSystem]

theorem connections_below_threshold_witness :
    (0 < min (headOnSystem : ParticleConnectionSystem ℚ).canvasWidth
        (headOnSystem : ParticleConnectionSystem ℚ).canvasHeight ∧
      0 < (NETWORK_SETTINGS : Settings ℚ).connectionThreshold) ∧
    connectionBetween NETWORK_SETTINGS ratSqrt headOnSystem headOnA headOnB ∈
      createParticleConnections NETWORK_SETTINGS ratSqrt headOnSystem := by
  have hcanvas :
      0 < min (headOnSystem : ParticleConnectionSystem ℚ).canvasWidth
        (headOnSystem : ParticleConnectionSystem ℚ).canvasHeight := by
    norm_num [headOnSystem]
  have hthr : 0 < (NETWORK_SETTINGS : Settings ℚ).connectionThreshold := by
    norm_num [NETWORK_SETTINGS]
  refine ⟨⟨hcanvas, hthr⟩, ?_⟩
  apply ((connections_below_threshold NETWORK_SETTINGS ratSqrt headOnSystem hcanvas hthr).1
    0 1 headOnA headOnB (by decide) rfl rfl).mpr
  rw [headOn_dist, headOn_scaledThreshold]
  norm_num

/-! ## Cursor repulsion and the speed limit -/

end Sketch
